/-
  Verification of the Parking IoT blockchain core.

  Shallow embedding of the two Solidity contracts that carry the
  repository's invariants:
  * `ParkingSystem` (reservation ledger, settlement, cancellation), and
  * `ParkingOracle` (sensor-reading validation and oracle trust scores).

  Modelling conventions:
  * `uint256` becomes `Nat`; Solidity 0.8 checked subtraction is modelled
    by guarding every subtraction that could underflow and failing the
    operation there, exactly where the EVM would revert.
  * `address` becomes `Nat`, with `0` playing the role of `address(0)`.
  * Solidity mappings become total functions from `Nat`, returning the
    zero-initialised struct outside their written domain, as in the EVM.
  * A reverting call is `Except.error e`; a returning call is `Except.ok`.
  * Ghost observations that the chain emits but does not store are kept
    explicitly: the list of `transfer` calls performed, the cumulative
    amount withdrawn by the owner, the number of successful cancellations,
    the `actualCost` figure emitted by `ReservationCompleted`, and the
    oracle contract's event log.
-/
import Mathlib

namespace Parking

/-- Enum `ReservationStatus` of `ParkingSystem.sol`.  The first variant is
the zero value, so an untouched mapping slot reads as `Active`. -/
inductive ReservationStatus
  | Active
  | Completed
  | Cancelled
  | Expired
  deriving DecidableEq, Repr

/-- Struct `ParkingSpot` of `ParkingSystem.sol`. -/
structure ParkingSpot where
  spotId : Nat
  location : String
  hourlyRate : Nat
  isActive : Bool
  isOccupied : Bool
  currentUser : Nat
  reservationEnd : Nat
  totalEarnings : Nat
  totalOccupations : Nat
  deriving DecidableEq, Repr

/-- Struct `Reservation` of `ParkingSystem.sol`, plus the ghost field
`actualCost`: the amount computed by `completeReservation` and emitted in
the `ReservationCompleted` event (zero until completion). -/
structure Reservation where
  reservationId : Nat
  user : Nat
  spotId : Nat
  startTime : Nat
  endTime : Nat
  totalCost : Nat
  paidAmount : Nat
  status : ReservationStatus
  actualStartTime : Nat
  actualEndTime : Nat
  actualCost : Nat
  deriving DecidableEq, Repr

/-- The zero-initialised `ParkingSpot` an unwritten mapping slot holds. -/
def defaultSpot : ParkingSpot :=
  { spotId := 0, location := "", hourlyRate := 0, isActive := false,
    isOccupied := false, currentUser := 0, reservationEnd := 0,
    totalEarnings := 0, totalOccupations := 0 }

/-- The zero-initialised `Reservation` (status decodes to `Active`). -/
def defaultReservation : Reservation :=
  { reservationId := 0, user := 0, spotId := 0, startTime := 0, endTime := 0,
    totalCost := 0, paidAmount := 0, status := .Active,
    actualStartTime := 0, actualEndTime := 0, actualCost := 0 }

/-- Full state of the `ParkingSystem` contract, with ghost fields
(`transfers`, `withdrawn`, `cancels`) recording externally visible value
movement that the contract itself does not store. -/
structure SysState where
  spots : Nat → ParkingSpot
  spotWritten : Nat → Bool
  reservations : Nat → Reservation
  userReservations : Nat → List Nat
  nextSpotId : Nat
  nextReservationId : Nat
  platformFeePercentage : Nat
  totalPlatformEarnings : Nat
  oracleAddress : Nat
  owner : Nat
  paused : Bool
  transfers : List (Nat × Nat)
  withdrawn : Nat
  cancels : Nat

/-- Revert reasons of `ParkingSystem.sol`, one per `require`/modifier. -/
inductive SysError
  | NotOwner
  | RateZero
  | Paused
  | NotPaused
  | SpotNotFound
  | SpotInactive
  | SpotOccupied
  | PastStart
  | EndNotAfterStart
  | DurationTooShort
  | DurationTooLong
  | Overlap
  | InsufficientPayment
  | BadReservationId
  | NotActive
  | AlreadyStarted
  | NotStarted
  | AlreadyEnded
  | NotRequester
  | TooLateToCancel
  | NotOracle
  | ClockUnderflow
  | FeeTooHigh
  | ZeroOracleAddress
  | ZeroOwnerAddress
  deriving DecidableEq, Repr

/-- The state produced by the constructor
`constructor(address _oracleAddress)`. -/
def initState (deployer oracleAddr : Nat) : SysState :=
  { spots := fun _ => defaultSpot
    spotWritten := fun _ => false
    reservations := fun _ => defaultReservation
    userReservations := fun _ => []
    nextSpotId := 1
    nextReservationId := 1
    platformFeePercentage := 10
    totalPlatformEarnings := 0
    oracleAddress := oracleAddr
    owner := deployer
    paused := false
    transfers := []
    withdrawn := 0
    cancels := 0 }

/-- The freshly initialised spot record written by `createParkingSpot`. -/
def newSpotRec (s : SysState) (location : String) (hourlyRate : Nat) : ParkingSpot :=
  { spotId := s.nextSpotId, location := location, hourlyRate := hourlyRate,
    isActive := true, isOccupied := false, currentUser := 0,
    reservationEnd := 0, totalEarnings := 0, totalOccupations := 0 }

/-- Successful-path state change of `createParkingSpot`. -/
def createSpotApply (s : SysState) (location : String) (hourlyRate : Nat) : SysState :=
  { s with
    spots := fun i => if i = s.nextSpotId then newSpotRec s location hourlyRate
      else s.spots i
    spotWritten := fun i => if i = s.nextSpotId then true else s.spotWritten i
    nextSpotId := s.nextSpotId + 1 }

/-- `createParkingSpot(string _location, uint256 _hourlyRate)`:
owner-only, rejects a zero rate, allocates the next spot id. -/
def createParkingSpot (s : SysState) (caller : Nat) (location : String)
    (hourlyRate : Nat) : Except SysError SysState :=
  if caller ≠ s.owner then .error .NotOwner
  else if hourlyRate = 0 then .error .RateZero
  else .ok (createSpotApply s location hourlyRate)

/-- Cost formula of `reserveSpot`: `duration * hourlyRate / 1 hours`
with Solidity integer (floor) division. -/
def reserveCost (s : SysState) (spotId startTime endTime : Nat) : Nat :=
  (endTime - startTime) * (s.spots spotId).hourlyRate / 3600

/-- The reservation record written by `reserveSpot`. -/
def newReservationRec (s : SysState) (caller value spotId startTime endTime : Nat) :
    Reservation :=
  { reservationId := s.nextReservationId, user := caller, spotId := spotId,
    startTime := startTime, endTime := endTime,
    totalCost := reserveCost s spotId startTime endTime,
    paidAmount := value, status := .Active,
    actualStartTime := 0, actualEndTime := 0, actualCost := 0 }

/-- Successful-path state change of `reserveSpot`: record the reservation,
advance the spot's horizon to `endTime`, refund any surplus of the
payment over the cost. -/
def reserveApply (s : SysState) (caller now value spotId startTime endTime : Nat) :
    SysState :=
  { s with
    reservations := fun i => if i = s.nextReservationId then
        newReservationRec s caller value spotId startTime endTime
      else s.reservations i
    userReservations := fun u => if u = caller then
        s.userReservations caller ++ [s.nextReservationId]
      else s.userReservations u
    nextReservationId := s.nextReservationId + 1
    spots := fun i => if i = spotId then
        { s.spots spotId with reservationEnd := endTime }
      else s.spots i
    transfers := if reserveCost s spotId startTime endTime < value then
        (caller, value - reserveCost s spotId startTime endTime) :: s.transfers
      else s.transfers }

/-- `reserveSpot(uint256 _spotId, uint256 _startTime, uint256 _endTime)`
(payable, `value` is `msg.value`, `now` is `block.timestamp`).
Guards in source order, each with its own revert reason. -/
def reserveSpot (s : SysState) (caller now value spotId startTime endTime : Nat) :
    Except SysError SysState :=
  if s.paused = true then .error .Paused
  else if s.spotWritten spotId = false then .error .SpotNotFound
  else if (s.spots spotId).isActive = false then .error .SpotInactive
  else if (s.spots spotId).isOccupied = true then .error .SpotOccupied
  else if startTime < now then .error .PastStart
  else if endTime ≤ startTime then .error .EndNotAfterStart
  else if endTime - startTime < 3600 then .error .DurationTooShort
  else if 86400 < endTime - startTime then .error .DurationTooLong
  else if startTime < (s.spots spotId).reservationEnd then .error .Overlap
  else if value < reserveCost s spotId startTime endTime then .error .InsufficientPayment
  else .ok (reserveApply s caller now value spotId startTime endTime)

/-- Successful-path state change of `startReservation`. -/
def startApply (s : SysState) (now rid : Nat) : SysState :=
  { s with
    reservations := fun i => if i = rid then
        { s.reservations rid with actualStartTime := now }
      else s.reservations i
    spots := fun i => if i = (s.reservations rid).spotId then
        { s.spots (s.reservations rid).spotId with
          isOccupied := true, currentUser := (s.reservations rid).user,
          totalOccupations := (s.spots (s.reservations rid).spotId).totalOccupations + 1 }
      else s.spots i }

/-- `startReservation(uint256 _reservationId)`: oracle-only; the
reservation must be `Active` and not yet started. -/
def startReservation (s : SysState) (caller now rid : Nat) :
    Except SysError SysState :=
  if caller ≠ s.oracleAddress then .error .NotOracle
  else if s.nextReservationId ≤ rid then .error .BadReservationId
  else if (s.reservations rid).status ≠ .Active then .error .NotActive
  else if (s.reservations rid).actualStartTime ≠ 0 then .error .AlreadyStarted
  else .ok (startApply s now rid)

/-- Occupied-duration cost recomputed at completion:
`(actualEndTime - actualStartTime) * hourlyRate / 1 hours`. -/
def actualCostOf (s : SysState) (now rid : Nat) : Nat :=
  (now - (s.reservations rid).actualStartTime)
    * (s.spots (s.reservations rid).spotId).hourlyRate / 3600

/-- Platform fee taken at completion:
`actualCost * platformFeePercentage / 100`. -/
def platformFeeOf (s : SysState) (now rid : Nat) : Nat :=
  actualCostOf s now rid * s.platformFeePercentage / 100

/-- Successful-path state change of `completeReservation`: close the
reservation, free the spot, split the actual cost between spot earnings
and platform fee, refund any escrow surplus over the actual cost. -/
def completeApply (s : SysState) (now rid : Nat) : SysState :=
  { s with
    reservations := fun i => if i = rid then
        { s.reservations rid with
          actualEndTime := now, status := .Completed,
          actualCost := actualCostOf s now rid }
      else s.reservations i
    spots := fun i => if i = (s.reservations rid).spotId then
        { s.spots (s.reservations rid).spotId with
          isOccupied := false, currentUser := 0,
          totalEarnings := (s.spots (s.reservations rid).spotId).totalEarnings
            + (actualCostOf s now rid - platformFeeOf s now rid) }
      else s.spots i
    totalPlatformEarnings := s.totalPlatformEarnings + platformFeeOf s now rid
    transfers := if actualCostOf s now rid < (s.reservations rid).totalCost then
        ((s.reservations rid).user,
          (s.reservations rid).totalCost - actualCostOf s now rid) :: s.transfers
      else s.transfers }

/-- `completeReservation(uint256 _reservationId)`: oracle-only; the
reservation must be `Active`, started, and not yet ended.  The
`ClockUnderflow` guard models the Solidity 0.8 checked subtraction
`block.timestamp - actualStartTime`. -/
def completeReservation (s : SysState) (caller now rid : Nat) :
    Except SysError SysState :=
  if caller ≠ s.oracleAddress then .error .NotOracle
  else if s.nextReservationId ≤ rid then .error .BadReservationId
  else if (s.reservations rid).status ≠ .Active then .error .NotActive
  else if (s.reservations rid).actualStartTime = 0 then .error .NotStarted
  else if (s.reservations rid).actualEndTime ≠ 0 then .error .AlreadyEnded
  else if now < (s.reservations rid).actualStartTime then .error .ClockUnderflow
  else .ok (completeApply s now rid)

/-- The 5% cancellation fee `totalCost * 5 / 100`. -/
def cancellationFeeOf (s : SysState) (rid : Nat) : Nat :=
  (s.reservations rid).totalCost * 5 / 100

/-- Successful-path state change of `cancelReservation`: mark the
reservation `Cancelled`, reset the spot's horizon to `0`, keep the fee
for the platform, refund the rest. -/
def cancelApply (s : SysState) (caller rid : Nat) : SysState :=
  { s with
    reservations := fun i => if i = rid then
        { s.reservations rid with status := .Cancelled }
      else s.reservations i
    spots := fun i => if i = (s.reservations rid).spotId then
        { s.spots (s.reservations rid).spotId with reservationEnd := 0 }
      else s.spots i
    totalPlatformEarnings := s.totalPlatformEarnings + cancellationFeeOf s rid
    transfers := (caller, (s.reservations rid).totalCost - cancellationFeeOf s rid)
      :: s.transfers
    cancels := s.cancels + 1 }

/-- `cancelReservation(uint256 _reservationId)`: requester-only, only
while `Active`, not yet started, and strictly before the booked
`startTime` (the `require(block.timestamp < reservation.startTime)`). -/
def cancelReservation (s : SysState) (caller now rid : Nat) :
    Except SysError SysState :=
  if s.nextReservationId ≤ rid then .error .BadReservationId
  else if (s.reservations rid).user ≠ caller then .error .NotRequester
  else if (s.reservations rid).status ≠ .Active then .error .NotActive
  else if (s.reservations rid).actualStartTime ≠ 0 then .error .AlreadyStarted
  else if (s.reservations rid).startTime ≤ now then .error .TooLateToCancel
  else .ok (cancelApply s caller rid)

/-- `updatePlatformFee(uint256 _newFeePercentage)`: owner-only,
bounded by 20. -/
def updatePlatformFee (s : SysState) (caller pct : Nat) :
    Except SysError SysState :=
  if caller ≠ s.owner then .error .NotOwner
  else if 20 < pct then .error .FeeTooHigh
  else .ok { s with platformFeePercentage := pct }

/-- `updateOracle(address _newOracle)`: owner-only, non-zero address. -/
def updateOracle (s : SysState) (caller newOracle : Nat) :
    Except SysError SysState :=
  if caller ≠ s.owner then .error .NotOwner
  else if newOracle = 0 then .error .ZeroOracleAddress
  else .ok { s with oracleAddress := newOracle }

/-- `withdrawPlatformEarnings()`: owner-only; zeroes the accrued balance
and transfers it to the owner.  The ghost `withdrawn` accumulates the
amount that left the contract. -/
def withdrawPlatformEarnings (s : SysState) (caller : Nat) :
    Except SysError SysState :=
  if caller ≠ s.owner then .error .NotOwner
  else .ok { s with
    totalPlatformEarnings := 0
    withdrawn := s.withdrawn + s.totalPlatformEarnings
    transfers := (s.owner, s.totalPlatformEarnings) :: s.transfers }

/-- `pause()`: owner-only, from the unpaused state (OpenZeppelin
`Pausable._pause`). -/
def pauseSystem (s : SysState) (caller : Nat) : Except SysError SysState :=
  if caller ≠ s.owner then .error .NotOwner
  else if s.paused = true then .error .Paused
  else .ok { s with paused := true }

/-- `unpause()`: owner-only, from the paused state. -/
def unpauseSystem (s : SysState) (caller : Nat) : Except SysError SysState :=
  if caller ≠ s.owner then .error .NotOwner
  else if s.paused = false then .error .NotPaused
  else .ok { s with paused := false }

/-- OpenZeppelin `Ownable.transferOwnership`. -/
def transferSystemOwner (s : SysState) (caller newOwner : Nat) :
    Except SysError SysState :=
  if caller ≠ s.owner then .error .NotOwner
  else if newOwner = 0 then .error .ZeroOwnerAddress
  else .ok { s with owner := newOwner }

/-- One externally triggered transaction of `ParkingSystem` that did not
revert (`receive()` always reverts, so it contributes no step). -/
inductive Step : SysState → SysState → Prop
  | create {s s' : SysState} (caller : Nat) (location : String) (rate : Nat)
      (h : createParkingSpot s caller location rate = .ok s') : Step s s'
  | reserve {s s' : SysState} (caller now value spotId startTime endTime : Nat)
      (h : reserveSpot s caller now value spotId startTime endTime = .ok s') :
      Step s s'
  | start {s s' : SysState} (caller now rid : Nat)
      (h : startReservation s caller now rid = .ok s') : Step s s'
  | complete {s s' : SysState} (caller now rid : Nat)
      (h : completeReservation s caller now rid = .ok s') : Step s s'
  | cancel {s s' : SysState} (caller now rid : Nat)
      (h : cancelReservation s caller now rid = .ok s') : Step s s'
  | setFee {s s' : SysState} (caller pct : Nat)
      (h : updatePlatformFee s caller pct = .ok s') : Step s s'
  | setOracle {s s' : SysState} (caller newOracle : Nat)
      (h : updateOracle s caller newOracle = .ok s') : Step s s'
  | withdraw {s s' : SysState} (caller : Nat)
      (h : withdrawPlatformEarnings s caller = .ok s') : Step s s'
  | doPause {s s' : SysState} (caller : Nat)
      (h : pauseSystem s caller = .ok s') : Step s s'
  | doUnpause {s s' : SysState} (caller : Nat)
      (h : unpauseSystem s caller = .ok s') : Step s s'
  | ownerChange {s s' : SysState} (caller newOwner : Nat)
      (h : transferSystemOwner s caller newOwner = .ok s') : Step s s'

/-- States of `ParkingSystem` reachable from deployment. -/
inductive Reach : SysState → Prop
  | init (deployer oracleAddr : Nat) : Reach (initState deployer oracleAddr)
  | step {s s' : SysState} : Reach s → Step s s' → Reach s'

/-- Lifetime earnings booked across all spots. -/
def spotEarningsSum (s : SysState) : Nat :=
  ∑ i in Finset.range s.nextSpotId, (s.spots i).totalEarnings

/-- Sum of the `actualCost` of all `Completed` reservations. -/
def completedCostSum (s : SysState) : Nat :=
  ∑ i in Finset.range s.nextReservationId,
    (if (s.reservations i).status = .Completed then (s.reservations i).actualCost else 0)

/-- Sum of the 5% cancellation fees of all `Cancelled` reservations. -/
def cancelledFeeSum (s : SysState) : Nat :=
  ∑ i in Finset.range s.nextReservationId,
    (if (s.reservations i).status = .Cancelled then
      (s.reservations i).totalCost * 5 / 100 else 0)

/-- Bookkeeping facts maintained by every `ParkingSystem` operation; the
last field is the corrected financial-conservation equation: earnings
booked on spots, the platform balance, and everything the owner has
withdrawn together equal the actual cost of all completions plus the 5%
fees of all cancellations. -/
structure SysInv (s : SysState) : Prop where
  feeBound : s.platformFeePercentage ≤ 20
  spotIdPos : 1 ≤ s.nextSpotId
  ridPos : 1 ≤ s.nextReservationId
  writtenBound : ∀ i, s.spotWritten i = true → i < s.nextSpotId
  ridSpotBound : ∀ j, j < s.nextReservationId → (s.reservations j).spotId < s.nextSpotId
  conserve : spotEarningsSum s + s.totalPlatformEarnings + s.withdrawn
      = completedCostSum s + cancelledFeeSum s

/-- No two recorded `Active` reservations on the same spot have
overlapping half-open `[startTime, endTime)` windows. -/
def noActiveOverlap (s : SysState) : Prop :=
  ∀ i j, i < s.nextReservationId → j < s.nextReservationId → i ≠ j →
    (s.reservations i).spotId = (s.reservations j).spotId →
    (s.reservations i).status = .Active → (s.reservations j).status = .Active →
    (s.reservations i).endTime ≤ (s.reservations j).startTime ∨
    (s.reservations j).endTime ≤ (s.reservations i).startTime

/-- In cancellation-free runs: every `Active` reservation's window ends
no later than its spot's horizon, and `Active` windows never overlap. -/
structure HorizonInv (s : SysState) : Prop where
  horizon : ∀ j, j < s.nextReservationId → (s.reservations j).status = .Active →
      (s.reservations j).endTime ≤ (s.spots (s.reservations j).spotId).reservationEnd
  disjoint : noActiveOverlap s

/-! ## The `ParkingOracle` contract -/

/-- Struct `SensorData` of `ParkingOracle.sol` (`bytes32 dataHash`
becomes a `Nat`). -/
structure SensorData where
  spotId : Nat
  isOccupied : Bool
  confidence : Nat
  timestamp : Nat
  sensorType : String
  dataHash : Nat
  deriving DecidableEq, Repr

/-- Struct `OracleNode` of `ParkingOracle.sol`. -/
structure OracleNode where
  nodeAddress : Nat
  isActive : Bool
  reputation : Nat
  totalUpdates : Nat
  lastUpdate : Nat
  nodeId : String
  deriving DecidableEq, Repr

/-- Zero-initialised `SensorData` (its `timestamp = 0` marks "no prior
reading" throughout the contract). -/
def defaultSensorData : SensorData :=
  { spotId := 0, isOccupied := false, confidence := 0, timestamp := 0,
    sensorType := "", dataHash := 0 }

/-- Zero-initialised `OracleNode` (inactive, reputation 0). -/
def defaultOracleNode : OracleNode :=
  { nodeAddress := 0, isActive := false, reputation := 0, totalUpdates := 0,
    lastUpdate := 0, nodeId := "" }

/-- Events emitted by `ParkingOracle.sol`, kept as a ghost log. -/
inductive OracleEvent
  | OracleNodeAdded (node : Nat) (nodeId : String)
  | OracleNodeRemoved (node : Nat)
  | OracleNodeUpdated (node : Nat) (isActive : Bool) (reputation : Nat)
  | SensorDataUpdated (spotId : Nat) (isOccupied : Bool) (confidence : Nat)
      (reporter : Nat) (sensorType : String)
  | ParkingSystemUpdated (addr : Nat)
  | DataValidationFailed (reporter : Nat) (spotId : Nat)
  deriving DecidableEq, Repr

/-- Full state of the `ParkingOracle` contract, with the emitted events
as a ghost log (newest first). -/
structure OracleState where
  oracleNodes : Nat → OracleNode
  latestSensorData : Nat → SensorData
  sensorHistory : Nat → List SensorData
  processedDataHashes : Nat → Bool
  activeOracles : List Nat
  parkingSystemContract : Nat
  owner : Nat
  paused : Bool
  events : List OracleEvent

/-- Revert reasons of `ParkingOracle.sol`. -/
inductive OracleError
  | NotOwner
  | ZeroAddress
  | AlreadyActive
  | NodeNotActive
  | NotAuthorized
  | Paused
  | NotPaused
  | InvalidSpotId
  | Cooldown
  | LowConfidence
  | Replay
  | EmptySensorType
  | ReputationTooHigh
  | UnknownOracle
  deriving DecidableEq, Repr

/-- Outcome reported by a non-reverting `updateSensorData` call: the
reading was stored, or it was soft-rejected by semantic validation. -/
inductive UpdateOutcome
  | accepted
  | softRejected
  deriving DecidableEq, Repr

/-- State built by `constructor(address _parkingSystemContract)`. -/
def initOracleState (deployer sysContract : Nat) : OracleState :=
  { oracleNodes := fun _ => defaultOracleNode
    latestSensorData := fun _ => defaultSensorData
    sensorHistory := fun _ => []
    processedDataHashes := fun _ => false
    activeOracles := []
    parkingSystemContract := sysContract
    owner := deployer
    paused := false
    events := [] }

/-- `_rewardOracle`: `+1` reputation, only while strictly below 1000. -/
def rewardOracle (s : OracleState) (a : Nat) : OracleState :=
  if (s.oracleNodes a).reputation < 1000 then
    { s with oracleNodes := fun i => if i = a then
        { s.oracleNodes a with reputation := (s.oracleNodes a).reputation + 1 }
      else s.oracleNodes i }
  else s

/-- Reputation after `_penalizeOracle`: `-10` only while strictly above
10, otherwise unchanged. -/
def penalizedReputation (rep : Nat) : Nat :=
  if 10 < rep then rep - 10 else rep

/-- `_penalizeOracle`: decrement the reputation, then deactivate the node
(and emit `OracleNodeUpdated`) when the result is below 100. -/
def penalizeOracle (s : OracleState) (a : Nat) : OracleState :=
  if penalizedReputation (s.oracleNodes a).reputation < 100 then
    { s with
      oracleNodes := fun i => if i = a then
          { s.oracleNodes a with
            reputation := penalizedReputation (s.oracleNodes a).reputation,
            isActive := false }
        else s.oracleNodes i
      events := .OracleNodeUpdated a false
          (penalizedReputation (s.oracleNodes a).reputation) :: s.events }
  else
    { s with oracleNodes := fun i => if i = a then
        { s.oracleNodes a with
          reputation := penalizedReputation (s.oracleNodes a).reputation }
      else s.oracleNodes i }

/-- `addOracleNode(address, string)`: owner-only, non-zero address,
address not already active; initial reputation 500. -/
def addOracleNode (s : OracleState) (caller node : Nat) (nodeId : String) :
    Except OracleError OracleState :=
  if caller ≠ s.owner then .error .NotOwner
  else if node = 0 then .error .ZeroAddress
  else if (s.oracleNodes node).isActive = true then .error .AlreadyActive
  else .ok { s with
    oracleNodes := fun i => if i = node then
        { nodeAddress := node, isActive := true, reputation := 500,
          totalUpdates := 0, lastUpdate := 0, nodeId := nodeId }
      else s.oracleNodes i
    activeOracles := s.activeOracles ++ [node]
    events := .OracleNodeAdded node nodeId :: s.events }

/-- The swap-removal loop of `removeOracleNode`: the first occurrence of
`x` is overwritten with the last element and the last slot is popped. -/
def swapRemoveFirst (l : List Nat) (x : Nat) : List Nat :=
  if x ∈ l then (l.set (l.indexOf x) (l.getLastD 0)).dropLast else l

/-- `removeOracleNode(address)`: owner-only, node must be active. -/
def removeOracleNode (s : OracleState) (caller node : Nat) :
    Except OracleError OracleState :=
  if caller ≠ s.owner then .error .NotOwner
  else if (s.oracleNodes node).isActive = false then .error .NodeNotActive
  else .ok { s with
    oracleNodes := fun i => if i = node then
        { s.oracleNodes node with isActive := false }
      else s.oracleNodes i
    activeOracles := swapRemoveFirst s.activeOracles node
    events := .OracleNodeRemoved node :: s.events }

/-- `_validateSensorData`: confidence must lie in `[70, 100]`; when a
prior reading exists, an occupancy flip needs confidence `≥ 80` and the
reading must not be more frequent than the cooldown.  (The subtraction
`now - last.timestamp` cannot underflow on any path that reaches this
check, because the `cooldownPassed` modifier has already run.) -/
def validateSensorData (s : OracleState) (spotId : Nat) (isOccupied : Bool)
    (confidence now : Nat) : Bool :=
  if confidence < 70 ∨ 100 < confidence then false
  else if 0 < (s.latestSensorData spotId).timestamp then
    if (s.latestSensorData spotId).isOccupied ≠ isOccupied ∧ confidence < 80 then
      false
    else if now - (s.latestSensorData spotId).timestamp < 30 then false
    else true
  else true

/-- Soft-rejection path of `updateSensorData`: emit
`DataValidationFailed`, penalize the reporter, change nothing else. -/
def softRejectApply (s : OracleState) (caller spotId : Nat) : OracleState :=
  penalizeOracle
    { s with events := .DataValidationFailed caller spotId :: s.events } caller

/-- The history-compaction loop of `updateSensorData`, verbatim: for
`i < k` it assigns `hist[i] := hist[i+1]` (each read still sees the
original array, because slot `i+1` is only written after it was read),
then one `pop` removes the final slot. -/
def historyShift (l : List SensorData) (k : Nat) : List SensorData :=
  ((List.range l.length).map (fun i =>
    if i < k then l.getD (i + 1) defaultSensorData
    else l.getD i defaultSensorData)).dropLast

/-- The spot's history after the accepted reading `nd` is pushed and the
compaction loop has run (`MAX_HISTORY_SIZE = 100`). -/
def pushHistory (l : List SensorData) (nd : SensorData) : List SensorData :=
  if 100 < (l ++ [nd]).length then historyShift (l ++ [nd]) ((l ++ [nd]).length - 100)
  else l ++ [nd]

/-- The reading record built by `updateSensorData` on acceptance. -/
def newSensorRec (now spotId : Nat) (isOccupied : Bool) (confidence : Nat)
    (sensorType : String) (dataHash : Nat) : SensorData :=
  { spotId := spotId, isOccupied := isOccupied, confidence := confidence,
    timestamp := now, sensorType := sensorType, dataHash := dataHash }

/-- The storage part of the acceptance path: store as latest, mark the
hash processed, push onto the bounded history, bump the reporter's
counters. -/
def storeReading (s : OracleState) (caller now spotId : Nat) (isOccupied : Bool)
    (confidence : Nat) (sensorType : String) (dataHash : Nat) : OracleState :=
  { s with
    latestSensorData := fun i => if i = spotId then
        newSensorRec now spotId isOccupied confidence sensorType dataHash
      else s.latestSensorData i
    processedDataHashes := fun d => if d = dataHash then true else s.processedDataHashes d
    sensorHistory := fun i => if i = spotId then
        pushHistory (s.sensorHistory spotId)
          (newSensorRec now spotId isOccupied confidence sensorType dataHash)
      else s.sensorHistory i
    oracleNodes := fun i => if i = caller then
        { s.oracleNodes caller with
          totalUpdates := (s.oracleNodes caller).totalUpdates + 1,
          lastUpdate := now }
      else s.oracleNodes i }

/-- Acceptance path of `updateSensorData`: store the reading, reward the
reporter, emit `SensorDataUpdated`. -/
def acceptApply (s : OracleState) (caller now spotId : Nat) (isOccupied : Bool)
    (confidence : Nat) (sensorType : String) (dataHash : Nat) : OracleState :=
  { rewardOracle
      (storeReading s caller now spotId isOccupied confidence sensorType dataHash)
      caller with
    events :=
      (.SensorDataUpdated spotId isOccupied confidence caller sensorType)
        :: (rewardOracle
            (storeReading s caller now spotId isOccupied confidence sensorType dataHash)
            caller).events }

/-- `updateSensorData(uint256, bool, uint256, string, bytes32)`.
Modifier/guard order as in the source: active node, not paused, spot id
positive, cooldown elapsed, confidence `≥ 70`, hash not processed,
sensor type non-empty; then semantic validation decides between the
acceptance path and the non-reverting soft rejection. -/
def updateSensorData (s : OracleState) (caller now spotId : Nat)
    (isOccupied : Bool) (confidence : Nat) (sensorType : String) (dataHash : Nat) :
    Except OracleError (OracleState × UpdateOutcome) :=
  if (s.oracleNodes caller).isActive = false then .error .NotAuthorized
  else if s.paused = true then .error .Paused
  else if spotId = 0 then .error .InvalidSpotId
  else if now < (s.latestSensorData spotId).timestamp + 30 then .error .Cooldown
  else if confidence < 70 then .error .LowConfidence
  else if s.processedDataHashes dataHash = true then .error .Replay
  else if sensorType.length = 0 then .error .EmptySensorType
  else if validateSensorData s spotId isOccupied confidence now = false then
    .ok (softRejectApply s caller spotId, .softRejected)
  else
    .ok (acceptApply s caller now spotId isOccupied confidence sensorType dataHash,
      .accepted)

/-- `updateOracleReputation(address, uint256)`: owner-only, bounded by
1000, node must have been created. -/
def updateOracleReputation (s : OracleState) (caller node rep : Nat) :
    Except OracleError OracleState :=
  if caller ≠ s.owner then .error .NotOwner
  else if 1000 < rep then .error .ReputationTooHigh
  else if (s.oracleNodes node).nodeAddress = 0 then .error .UnknownOracle
  else .ok { s with
    oracleNodes := fun i => if i = node then
        { s.oracleNodes node with reputation := rep }
      else s.oracleNodes i
    events := .OracleNodeUpdated node (s.oracleNodes node).isActive rep :: s.events }

/-- `updateParkingSystemContract(address)`: owner-only, non-zero. -/
def updateParkingSystemContract (s : OracleState) (caller addr : Nat) :
    Except OracleError OracleState :=
  if caller ≠ s.owner then .error .NotOwner
  else if addr = 0 then .error .ZeroAddress
  else .ok { s with parkingSystemContract := addr,
                    events := .ParkingSystemUpdated addr :: s.events }

/-- `pause()` on the oracle contract. -/
def pauseOracle (s : OracleState) (caller : Nat) : Except OracleError OracleState :=
  if caller ≠ s.owner then .error .NotOwner
  else if s.paused = true then .error .Paused
  else .ok { s with paused := true }

/-- `unpause()` on the oracle contract. -/
def unpauseOracle (s : OracleState) (caller : Nat) : Except OracleError OracleState :=
  if caller ≠ s.owner then .error .NotOwner
  else if s.paused = false then .error .NotPaused
  else .ok { s with paused := false }

/-- OpenZeppelin `Ownable.transferOwnership` on the oracle contract. -/
def transferOracleOwner (s : OracleState) (caller newOwner : Nat) :
    Except OracleError OracleState :=
  if caller ≠ s.owner then .error .NotOwner
  else if newOwner = 0 then .error .ZeroAddress
  else .ok { s with owner := newOwner }

/-- One non-reverting transaction of `ParkingOracle`, together with bare
reward/penalty applications so that arbitrary reward/penalize sequences
are themselves steps. -/
inductive OracleStep : OracleState → OracleState → Prop
  | add {s s' : OracleState} (caller node : Nat) (nodeId : String)
      (h : addOracleNode s caller node nodeId = .ok s') : OracleStep s s'
  | remove {s s' : OracleState} (caller node : Nat)
      (h : removeOracleNode s caller node = .ok s') : OracleStep s s'
  | update {s s' : OracleState} (caller now spotId : Nat) (isOccupied : Bool)
      (confidence : Nat) (sensorType : String) (dataHash : Nat)
      (out : UpdateOutcome)
      (h : updateSensorData s caller now spotId isOccupied confidence sensorType
        dataHash = .ok (s', out)) : OracleStep s s'
  | setReputation {s s' : OracleState} (caller node rep : Nat)
      (h : updateOracleReputation s caller node rep = .ok s') : OracleStep s s'
  | setSystem {s s' : OracleState} (caller addr : Nat)
      (h : updateParkingSystemContract s caller addr = .ok s') : OracleStep s s'
  | doPause {s s' : OracleState} (caller : Nat)
      (h : pauseOracle s caller = .ok s') : OracleStep s s'
  | doUnpause {s s' : OracleState} (caller : Nat)
      (h : unpauseOracle s caller = .ok s') : OracleStep s s'
  | ownerChange {s s' : OracleState} (caller newOwner : Nat)
      (h : transferOracleOwner s caller newOwner = .ok s') : OracleStep s s'
  | reward {s : OracleState} (a : Nat) : OracleStep s (rewardOracle s a)
  | penalize {s : OracleState} (a : Nat) : OracleStep s (penalizeOracle s a)

/-- States of `ParkingOracle` reachable from deployment. -/
inductive OracleReach : OracleState → Prop
  | init (deployer sysContract : Nat) : OracleReach (initOracleState deployer sysContract)
  | step {s s' : OracleState} : OracleReach s → OracleStep s s' → OracleReach s'

/-- The trust-mutating operations named by the reputation claim: rewards,
penalties and owner reputation overrides (plus the `updateSensorData`
calls through which rewards and penalties actually arise). -/
inductive TrustStep : OracleState → OracleState → Prop
  | update {s s' : OracleState} (caller now spotId : Nat) (isOccupied : Bool)
      (confidence : Nat) (sensorType : String) (dataHash : Nat)
      (out : UpdateOutcome)
      (h : updateSensorData s caller now spotId isOccupied confidence sensorType
        dataHash = .ok (s', out)) : TrustStep s s'
  | setReputation {s s' : OracleState} (caller node rep : Nat)
      (h : updateOracleReputation s caller node rep = .ok s') : TrustStep s s'
  | reward {s : OracleState} (a : Nat) : TrustStep s (rewardOracle s a)
  | penalize {s : OracleState} (a : Nat) : TrustStep s (penalizeOracle s a)

/-- Every oracle node's reputation is bounded by 1000 (the lower bound 0
is inherent to the unsigned representation). -/
def repBounded (s : OracleState) : Prop :=
  ∀ a, (s.oracleNodes a).reputation ≤ 1000

/-! ## Concrete executions

Small concrete runs of both contracts, used below to instantiate the
general theorems and to exhibit reachable states.  Addresses: `1` is the
deployer/owner, `2` the trusted oracle address of `ParkingSystem`, `3` a
parking user, `5` an oracle reporting node. -/

/-- Extract the state of a non-reverting `ParkingSystem` call. -/
def okS (d : SysState) : Except SysError SysState → SysState
  | .ok s => s
  | .error _ => d

/-- Extract the state of a non-reverting `ParkingOracle` call. -/
def okO (d : OracleState) : Except OracleError OracleState → OracleState
  | .ok s => s
  | .error _ => d

/-- Extract the state of a non-reverting `updateSensorData` call. -/
def okU (d : OracleState) : Except OracleError (OracleState × UpdateOutcome) → OracleState
  | .ok (s, _) => s
  | .error _ => d

/-- Deployment: owner `1`, oracle address `2`. -/
def cS0 : SysState := initState 1 2

/-- Owner creates spot `1` ("A1", 3600 wei per hour). -/
def cS1 : SysState := okS cS0 (createParkingSpot cS0 1 "A1" 3600)

/-- User `3` books reservation `1` on spot `1` for `[10, 3610)` at
`block.timestamp = 0`, paying exactly the 3600 wei cost. -/
def cS2 : SysState := okS cS0 (reserveSpot cS1 3 0 3600 1 10 3610)

/-- User `3` cancels reservation `1` at time `0`: the platform keeps the
5% fee (180 wei) although no reservation was ever completed. -/
def cS3 : SysState := okS cS0 (cancelReservation cS2 3 0 1)

/-- From `cS2`: user `3` books reservation `2` on spot `1` for
`[3610, 7210)` (back to back with reservation `1`). -/
def cS4 : SysState := okS cS0 (reserveSpot cS2 3 0 3600 1 3610 7210)

/-- User `3` cancels reservation `2`; `cancelReservation` resets the
spot's horizon to `0` even though reservation `1` is still `Active`. -/
def cS5 : SysState := okS cS0 (cancelReservation cS4 3 0 2)

/-- User `3` books reservation `3` on spot `1` for `[10, 3610)` again:
it overlaps the still-`Active` reservation `1`. -/
def cS6 : SysState := okS cS0 (reserveSpot cS5 3 0 3600 1 10 3610)

/-- From `cS2`: the oracle reports arrival at time `10`
(reservation `1` starts). -/
def cW3 : SysState := okS cS0 (startReservation cS2 2 10 1)

/-- Early departure at time `1810`: actual cost 1800 < escrowed 3600,
so 1800 wei are refunded. -/
def cW4 : SysState := okS cS0 (completeReservation cW3 2 1810 1)

/-- Overstayed departure at time `7210`: actual cost 7200 exceeds the
escrowed 3600, yet nothing extra is charged. -/
def cW5 : SysState := okS cS0 (completeReservation cW3 2 7210 1)

/-- Oracle contract deployment: owner `1`. -/
def oS0 : OracleState := initOracleState 1 7

/-- Owner authorizes reporting node `5` (reputation 500). -/
def oS1 : OracleState := okO oS0 (addOracleNode oS0 1 5 "n1")

/-- Node `5` submits the first reading for spot `1` at time `100`
(vacant, confidence 90, hash 1): accepted. -/
def oS2 : OracleState := okU oS0 (updateSensorData oS1 5 100 1 false 90 "u" 1)

/-- Node `5` submits an occupancy flip with confidence 75 and hash `2` at
time `130`: soft-rejected, so hash `2` is NOT marked processed. -/
def oS3 : OracleState := okU oS0 (updateSensorData oS2 5 130 1 true 75 "u" 2)

/-- Node `5` resubmits the same hash `2` with confidence 85 at time
`160`: accepted, although an earlier call already carried hash `2`. -/
def oS4 : OracleState := okU oS0 (updateSensorData oS3 5 160 1 true 85 "u" 2)

/-- Node `5` submits confidence `150 > 100` (same flag as the latest
reading, fresh hash `99`) at time `130` on top of `oS2`. -/
def oS8 : OracleState := okU oS0 (updateSensorData oS2 5 130 1 false 150 "u" 99)

/-- The `i`-th of one hundred stored readings for spot `1`. -/
def mkReading (i : Nat) : SensorData :=
  { spotId := 1, isOccupied := false, confidence := 90, timestamp := i + 1,
    sensorType := "u", dataHash := i + 1 }

/-- A full bounded history: readings `mkReading 0 … mkReading 99`. -/
def fullHistory : List SensorData := (List.range 100).map mkReading

/-- An oracle state whose spot-1 history already holds 100 entries, with
`mkReading 99` (timestamp 100) as the latest reading and node `5`
active. -/
def histState : OracleState :=
  { initOracleState 1 7 with
    oracleNodes := fun i => if i = 5 then
        { nodeAddress := 5, isActive := true, reputation := 500,
          totalUpdates := 100, lastUpdate := 100, nodeId := "n1" }
      else defaultOracleNode
    latestSensorData := fun i => if i = 1 then mkReading 99 else defaultSensorData
    sensorHistory := fun i => if i = 1 then fullHistory else []
    processedDataHashes := fun d => decide (0 < d ∧ d ≤ 100) }

/-- The 101st reading for spot `1` (vacant, confidence 90, time 200,
hash 500). -/
def newReading : SensorData :=
  { spotId := 1, isOccupied := false, confidence := 90, timestamp := 200,
    sensorType := "u", dataHash := 500 }

/-- The state after `newReading` is accepted on the full history. -/
def histState2 : OracleState :=
  okU histState (updateSensorData histState 5 200 1 false 90 "u" 500)

/-! ## Inversion lemmas: what a non-reverting call implies -/

theorem sum_range_congr {f g : Nat → Nat} {n : Nat} (h : ∀ i, i < n → f i = g i) :
    ∑ i in Finset.range n, f i = ∑ i in Finset.range n, g i :=
  Finset.sum_congr rfl (fun i hi => h i (Finset.mem_range.mp hi))

theorem sum_range_swap {f g : Nat → Nat} {n j : Nat} (hj : j < n)
    (hsame : ∀ i, i ≠ j → f i = g i) :
    (∑ i in Finset.range n, g i) + f j = (∑ i in Finset.range n, f i) + g j := by
  have hmem : j ∈ Finset.range n := Finset.mem_range.mpr hj
  rw [← Finset.sum_erase_add _ g hmem, ← Finset.sum_erase_add _ f hmem]
  have he : ∑ i in (Finset.range n).erase j, g i
      = ∑ i in (Finset.range n).erase j, f i :=
    Finset.sum_congr rfl (fun i hi => (hsame i (Finset.ne_of_mem_erase hi)).symm)
  rw [he]
  omega

theorem createParkingSpot_ok {s s' : SysState} {caller : Nat} {location : String}
    {rate : Nat} (h : createParkingSpot s caller location rate = .ok s') :
    caller = s.owner ∧ rate ≠ 0 ∧ s' = createSpotApply s location rate := by
  unfold createParkingSpot at h
  repeat' split at h
  all_goals cases h
  exact ⟨not_ne_iff.mp ‹¬ caller ≠ s.owner›, ‹¬ rate = 0›, rfl⟩

theorem reserveSpot_ok {s s' : SysState} {c now v sp st en : Nat}
    (h : reserveSpot s c now v sp st en = .ok s') :
    s.paused = false ∧ s.spotWritten sp = true ∧ (s.spots sp).isActive = true ∧
    (s.spots sp).isOccupied = false ∧ now ≤ st ∧ st < en ∧
    3600 ≤ en - st ∧ en - st ≤ 86400 ∧ (s.spots sp).reservationEnd ≤ st ∧
    reserveCost s sp st en ≤ v ∧ s' = reserveApply s c now v sp st en := by
  unfold reserveSpot at h
  repeat' split at h
  all_goals cases h
  refine ⟨by simpa using ‹¬ s.paused = true›, by simpa using ‹¬ s.spotWritten sp = false›,
    by simpa using ‹¬ (s.spots sp).isActive = false›,
    by simpa using ‹¬ (s.spots sp).isOccupied = true›,
    Nat.le_of_not_lt ‹¬ st < now›, Nat.lt_of_not_le ‹¬ en ≤ st›,
    Nat.le_of_not_lt ‹¬ en - st < 3600›, Nat.le_of_not_lt ‹¬ 86400 < en - st›,
    Nat.le_of_not_lt ‹¬ st < (s.spots sp).reservationEnd›,
    Nat.le_of_not_lt ‹¬ v < reserveCost s sp st en›, rfl⟩

theorem startReservation_ok {s s' : SysState} {caller now rid : Nat}
    (h : startReservation s caller now rid = .ok s') :
    caller = s.oracleAddress ∧ rid < s.nextReservationId ∧
    (s.reservations rid).status = .Active ∧
    (s.reservations rid).actualStartTime = 0 ∧ s' = startApply s now rid := by
  unfold startReservation at h
  repeat' split at h
  all_goals cases h
  exact ⟨not_ne_iff.mp ‹¬ caller ≠ s.oracleAddress›,
    Nat.lt_of_not_le ‹¬ s.nextReservationId ≤ rid›,
    not_ne_iff.mp ‹¬ (s.reservations rid).status ≠ .Active›,
    not_ne_iff.mp ‹¬ (s.reservations rid).actualStartTime ≠ 0›, rfl⟩

theorem completeReservation_ok {s s' : SysState} {caller now rid : Nat}
    (h : completeReservation s caller now rid = .ok s') :
    caller = s.oracleAddress ∧ rid < s.nextReservationId ∧
    (s.reservations rid).status = .Active ∧
    (s.reservations rid).actualStartTime ≠ 0 ∧
    (s.reservations rid).actualEndTime = 0 ∧
    (s.reservations rid).actualStartTime ≤ now ∧ s' = completeApply s now rid := by
  unfold completeReservation at h
  repeat' split at h
  all_goals cases h
  exact ⟨not_ne_iff.mp ‹¬ caller ≠ s.oracleAddress›,
    Nat.lt_of_not_le ‹¬ s.nextReservationId ≤ rid›,
    not_ne_iff.mp ‹¬ (s.reservations rid).status ≠ .Active›,
    ‹¬ (s.reservations rid).actualStartTime = 0›,
    not_ne_iff.mp ‹¬ (s.reservations rid).actualEndTime ≠ 0›,
    Nat.le_of_not_lt ‹¬ now < (s.reservations rid).actualStartTime›, rfl⟩

theorem cancelReservation_ok {s s' : SysState} {caller now rid : Nat}
    (h : cancelReservation s caller now rid = .ok s') :
    rid < s.nextReservationId ∧ (s.reservations rid).user = caller ∧
    (s.reservations rid).status = .Active ∧
    (s.reservations rid).actualStartTime = 0 ∧
    now < (s.reservations rid).startTime ∧ s' = cancelApply s caller rid := by
  unfold cancelReservation at h
  repeat' split at h
  all_goals cases h
  exact ⟨Nat.lt_of_not_le ‹¬ s.nextReservationId ≤ rid›,
    not_ne_iff.mp ‹¬ (s.reservations rid).user ≠ caller›,
    not_ne_iff.mp ‹¬ (s.reservations rid).status ≠ .Active›,
    not_ne_iff.mp ‹¬ (s.reservations rid).actualStartTime ≠ 0›,
    Nat.lt_of_not_le ‹¬ (s.reservations rid).startTime ≤ now›, rfl⟩

theorem updatePlatformFee_ok {s s' : SysState} {caller pct : Nat}
    (h : updatePlatformFee s caller pct = .ok s') :
    caller = s.owner ∧ pct ≤ 20 ∧ s' = { s with platformFeePercentage := pct } := by
  unfold updatePlatformFee at h
  repeat' split at h
  all_goals cases h
  exact ⟨not_ne_iff.mp ‹¬ caller ≠ s.owner›, Nat.le_of_not_lt ‹¬ 20 < pct›, rfl⟩

theorem updateOracle_ok {s s' : SysState} {caller newOracle : Nat}
    (h : updateOracle s caller newOracle = .ok s') :
    caller = s.owner ∧ newOracle ≠ 0 ∧ s' = { s with oracleAddress := newOracle } := by
  unfold updateOracle at h
  repeat' split at h
  all_goals cases h
  exact ⟨not_ne_iff.mp ‹¬ caller ≠ s.owner›, ‹¬ newOracle = 0›, rfl⟩

theorem withdrawPlatformEarnings_ok {s s' : SysState} {caller : Nat}
    (h : withdrawPlatformEarnings s caller = .ok s') :
    caller = s.owner ∧ s' = { s with
      totalPlatformEarnings := 0
      withdrawn := s.withdrawn + s.totalPlatformEarnings
      transfers := (s.owner, s.totalPlatformEarnings) :: s.transfers } := by
  unfold withdrawPlatformEarnings at h
  repeat' split at h
  all_goals cases h
  exact ⟨not_ne_iff.mp ‹¬ caller ≠ s.owner›, rfl⟩

theorem pauseSystem_ok {s s' : SysState} {caller : Nat}
    (h : pauseSystem s caller = .ok s') :
    caller = s.owner ∧ s' = { s with paused := true } := by
  unfold pauseSystem at h
  repeat' split at h
  all_goals cases h
  exact ⟨not_ne_iff.mp ‹¬ caller ≠ s.owner›, rfl⟩

theorem unpauseSystem_ok {s s' : SysState} {caller : Nat}
    (h : unpauseSystem s caller = .ok s') :
    caller = s.owner ∧ s' = { s with paused := false } := by
  unfold unpauseSystem at h
  repeat' split at h
  all_goals cases h
  exact ⟨not_ne_iff.mp ‹¬ caller ≠ s.owner›, rfl⟩

theorem transferSystemOwner_ok {s s' : SysState} {caller newOwner : Nat}
    (h : transferSystemOwner s caller newOwner = .ok s') :
    caller = s.owner ∧ s' = { s with owner := newOwner } := by
  unfold transferSystemOwner at h
  repeat' split at h
  all_goals cases h
  exact ⟨not_ne_iff.mp ‹¬ caller ≠ s.owner›, rfl⟩

theorem addOracleNode_ok {s s' : OracleState} {caller node : Nat} {nodeId : String}
    (h : addOracleNode s caller node nodeId = .ok s') :
    caller = s.owner ∧ node ≠ 0 ∧ (s.oracleNodes node).isActive = false ∧
    s' = { s with
      oracleNodes := fun i => if i = node then
          { nodeAddress := node, isActive := true, reputation := 500,
            totalUpdates := 0, lastUpdate := 0, nodeId := nodeId }
        else s.oracleNodes i
      activeOracles := s.activeOracles ++ [node]
      events := .OracleNodeAdded node nodeId :: s.events } := by
  unfold addOracleNode at h
  repeat' split at h
  all_goals cases h
  exact ⟨not_ne_iff.mp ‹¬ caller ≠ s.owner›, ‹¬ node = 0›,
    by simpa using ‹¬ (s.oracleNodes node).isActive = true›, rfl⟩

theorem removeOracleNode_ok {s s' : OracleState} {caller node : Nat}
    (h : removeOracleNode s caller node = .ok s') :
    caller = s.owner ∧ (s.oracleNodes node).isActive = true ∧
    s' = { s with
      oracleNodes := fun i => if i = node then
          { s.oracleNodes node with isActive := false }
        else s.oracleNodes i
      activeOracles := swapRemoveFirst s.activeOracles node
      events := .OracleNodeRemoved node :: s.events } := by
  unfold removeOracleNode at h
  repeat' split at h
  all_goals cases h
  exact ⟨not_ne_iff.mp ‹¬ caller ≠ s.owner›,
    by simpa using ‹¬ (s.oracleNodes node).isActive = false›, rfl⟩

theorem updateSensorData_ok {s s' : OracleState} {c now sp : Nat} {occ : Bool}
    {cf : Nat} {ty : String} {dh : Nat} {out : UpdateOutcome}
    (h : updateSensorData s c now sp occ cf ty dh = .ok (s', out)) :
    (s.oracleNodes c).isActive = true ∧ s.paused = false ∧ sp ≠ 0 ∧
    (s.latestSensorData sp).timestamp + 30 ≤ now ∧ 70 ≤ cf ∧
    s.processedDataHashes dh = false ∧ ty.length ≠ 0 ∧
    ((validateSensorData s sp occ cf now = false ∧ s' = softRejectApply s c sp ∧
        out = .softRejected) ∨
      (validateSensorData s sp occ cf now = true ∧
        s' = acceptApply s c now sp occ cf ty dh ∧ out = .accepted)) := by
  unfold updateSensorData at h
  repeat' split at h
  all_goals cases h
  · exact ⟨by simpa using ‹¬ (s.oracleNodes c).isActive = false›,
      by simpa using ‹¬ s.paused = true›, ‹¬ sp = 0›,
      by omega, Nat.le_of_not_lt ‹¬ cf < 70›,
      by simpa using ‹¬ s.processedDataHashes dh = true›, ‹¬ ty.length = 0›,
      Or.inl ⟨‹validateSensorData s sp occ cf now = false›, rfl, rfl⟩⟩
  · exact ⟨by simpa using ‹¬ (s.oracleNodes c).isActive = false›,
      by simpa using ‹¬ s.paused = true›, ‹¬ sp = 0›,
      by omega, Nat.le_of_not_lt ‹¬ cf < 70›,
      by simpa using ‹¬ s.processedDataHashes dh = true›, ‹¬ ty.length = 0›,
      Or.inr ⟨by simpa using ‹¬ validateSensorData s sp occ cf now = false›, rfl, rfl⟩⟩

theorem updateOracleReputation_ok {s s' : OracleState} {caller node rep : Nat}
    (h : updateOracleReputation s caller node rep = .ok s') :
    caller = s.owner ∧ rep ≤ 1000 ∧ (s.oracleNodes node).nodeAddress ≠ 0 ∧
    s' = { s with
      oracleNodes := fun i => if i = node then
          { s.oracleNodes node with reputation := rep }
        else s.oracleNodes i
      events := .OracleNodeUpdated node (s.oracleNodes node).isActive rep
        :: s.events } := by
  unfold updateOracleReputation at h
  repeat' split at h
  all_goals cases h
  exact ⟨not_ne_iff.mp ‹¬ caller ≠ s.owner›, Nat.le_of_not_lt ‹¬ 1000 < rep›,
    ‹¬ (s.oracleNodes node).nodeAddress = 0›, rfl⟩

theorem updateParkingSystemContract_ok {s s' : OracleState} {caller addr : Nat}
    (h : updateParkingSystemContract s caller addr = .ok s') :
    caller = s.owner ∧ addr ≠ 0 ∧
    s' = { s with parkingSystemContract := addr,
                  events := .ParkingSystemUpdated addr :: s.events } := by
  unfold updateParkingSystemContract at h
  repeat' split at h
  all_goals cases h
  exact ⟨not_ne_iff.mp ‹¬ caller ≠ s.owner›, ‹¬ addr = 0›, rfl⟩

theorem pauseOracle_ok {s s' : OracleState} {caller : Nat}
    (h : pauseOracle s caller = .ok s') :
    caller = s.owner ∧ s' = { s with paused := true } := by
  unfold pauseOracle at h
  repeat' split at h
  all_goals cases h
  exact ⟨not_ne_iff.mp ‹¬ caller ≠ s.owner›, rfl⟩

theorem unpauseOracle_ok {s s' : OracleState} {caller : Nat}
    (h : unpauseOracle s caller = .ok s') :
    caller = s.owner ∧ s' = { s with paused := false } := by
  unfold unpauseOracle at h
  repeat' split at h
  all_goals cases h
  exact ⟨not_ne_iff.mp ‹¬ caller ≠ s.owner›, rfl⟩

theorem transferOracleOwner_ok {s s' : OracleState} {caller newOwner : Nat}
    (h : transferOracleOwner s caller newOwner = .ok s') :
    caller = s.owner ∧ s' = { s with owner := newOwner } := by
  unfold transferOracleOwner at h
  repeat' split at h
  all_goals cases h
  exact ⟨not_ne_iff.mp ‹¬ caller ≠ s.owner›, rfl⟩

/-! ## Sums over pointwise map updates -/

theorem sum_update_preserve {α : Type} (m : Nat → α) (n j : Nat) (x : α) (F : α → Nat)
    (hF : F x = F (m j)) :
    (∑ i in Finset.range n, F (if i = j then x else m i))
      = ∑ i in Finset.range n, F (m i) := by
  refine Finset.sum_congr rfl (fun i _ => ?_)
  by_cases hij : i = j
  · subst hij; rw [if_pos rfl, hF]
  · rw [if_neg hij]

theorem sum_extend_update {α : Type} (m : Nat → α) (n : Nat) (x : α) (F : α → Nat) :
    (∑ i in Finset.range (n + 1), F (if i = n then x else m i))
      = (∑ i in Finset.range n, F (m i)) + F x := by
  rw [Finset.sum_range_succ, if_pos rfl]
  congr 1
  refine Finset.sum_congr rfl (fun i hi => ?_)
  rw [if_neg (Nat.ne_of_lt (Finset.mem_range.mp hi))]

theorem sum_point_update {α : Type} (m : Nat → α) {n j : Nat} (x : α) (F : α → Nat)
    (hj : j < n) :
    (∑ i in Finset.range n, F (if i = j then x else m i)) + F (m j)
      = (∑ i in Finset.range n, F (m i)) + F x := by
  have := sum_range_swap (f := fun i => F (m i))
    (g := fun i => F (if i = j then x else m i)) hj
    (fun i hi => by simp [hi])
  simpa using this

/-! ## How each operation moves the three conservation sums -/

theorem spotEarningsSum_createSpotApply (s : SysState) (loc : String) (rate : Nat) :
    spotEarningsSum (createSpotApply s loc rate) = spotEarningsSum s := by
  show (∑ i in Finset.range (s.nextSpotId + 1), ParkingSpot.totalEarnings
      (if i = s.nextSpotId then newSpotRec s loc rate else s.spots i))
    = ∑ i in Finset.range s.nextSpotId, ParkingSpot.totalEarnings (s.spots i)
  exact (sum_extend_update s.spots s.nextSpotId (newSpotRec s loc rate)
    ParkingSpot.totalEarnings).trans (by simp [newSpotRec])

theorem spotEarningsSum_reserveApply (s : SysState) (c now v sp st en : Nat) :
    spotEarningsSum (reserveApply s c now v sp st en) = spotEarningsSum s := by
  show (∑ i in Finset.range s.nextSpotId, ParkingSpot.totalEarnings
      (if i = sp then { s.spots sp with reservationEnd := en } else s.spots i))
    = ∑ i in Finset.range s.nextSpotId, ParkingSpot.totalEarnings (s.spots i)
  exact sum_update_preserve s.spots s.nextSpotId sp _ ParkingSpot.totalEarnings rfl

theorem completedCostSum_reserveApply (s : SysState) (c now v sp st en : Nat) :
    completedCostSum (reserveApply s c now v sp st en) = completedCostSum s := by
  show (∑ i in Finset.range (s.nextReservationId + 1),
      (fun r => if r.status = ReservationStatus.Completed then r.actualCost else 0)
        (if i = s.nextReservationId then newReservationRec s c v sp st en
          else s.reservations i))
    = ∑ i in Finset.range s.nextReservationId,
      (fun r => if r.status = ReservationStatus.Completed then r.actualCost else 0)
        (s.reservations i)
  exact (sum_extend_update s.reservations s.nextReservationId
    (newReservationRec s c v sp st en)
    (fun r => if r.status = ReservationStatus.Completed then r.actualCost else 0)).trans
    (by simp [newReservationRec])

theorem cancelledFeeSum_reserveApply (s : SysState) (c now v sp st en : Nat) :
    cancelledFeeSum (reserveApply s c now v sp st en) = cancelledFeeSum s := by
  show (∑ i in Finset.range (s.nextReservationId + 1),
      (fun r => if r.status = ReservationStatus.Cancelled then r.totalCost * 5 / 100 else 0)
        (if i = s.nextReservationId then newReservationRec s c v sp st en
          else s.reservations i))
    = ∑ i in Finset.range s.nextReservationId,
      (fun r => if r.status = ReservationStatus.Cancelled then r.totalCost * 5 / 100 else 0)
        (s.reservations i)
  exact (sum_extend_update s.reservations s.nextReservationId
    (newReservationRec s c v sp st en)
    (fun r => if r.status = ReservationStatus.Cancelled then r.totalCost * 5 / 100 else 0)).trans
    (by simp [newReservationRec])

theorem spotEarningsSum_startApply (s : SysState) (now rid : Nat) :
    spotEarningsSum (startApply s now rid) = spotEarningsSum s := by
  show (∑ i in Finset.range s.nextSpotId, ParkingSpot.totalEarnings
      (if i = (s.reservations rid).spotId then
        { s.spots (s.reservations rid).spotId with
          isOccupied := true, currentUser := (s.reservations rid).user,
          totalOccupations := (s.spots (s.reservations rid).spotId).totalOccupations + 1 }
        else s.spots i))
    = ∑ i in Finset.range s.nextSpotId, ParkingSpot.totalEarnings (s.spots i)
  exact sum_update_preserve s.spots s.nextSpotId _ _ ParkingSpot.totalEarnings rfl

theorem completedCostSum_startApply (s : SysState) (now rid : Nat) :
    completedCostSum (startApply s now rid) = completedCostSum s := by
  show (∑ i in Finset.range s.nextReservationId,
      (fun r => if r.status = ReservationStatus.Completed then r.actualCost else 0)
        (if i = rid then { s.reservations rid with actualStartTime := now }
          else s.reservations i))
    = ∑ i in Finset.range s.nextReservationId,
      (fun r => if r.status = ReservationStatus.Completed then r.actualCost else 0)
        (s.reservations i)
  exact sum_update_preserve s.reservations s.nextReservationId rid
    ({ s.reservations rid with actualStartTime := now })
    (fun r => if r.status = ReservationStatus.Completed then r.actualCost else 0) rfl

theorem cancelledFeeSum_startApply (s : SysState) (now rid : Nat) :
    cancelledFeeSum (startApply s now rid) = cancelledFeeSum s := by
  show (∑ i in Finset.range s.nextReservationId,
      (fun r => if r.status = ReservationStatus.Cancelled then r.totalCost * 5 / 100 else 0)
        (if i = rid then { s.reservations rid with actualStartTime := now }
          else s.reservations i))
    = ∑ i in Finset.range s.nextReservationId,
      (fun r => if r.status = ReservationStatus.Cancelled then r.totalCost * 5 / 100 else 0)
        (s.reservations i)
  exact sum_update_preserve s.reservations s.nextReservationId rid
    ({ s.reservations rid with actualStartTime := now })
    (fun r => if r.status = ReservationStatus.Cancelled then r.totalCost * 5 / 100 else 0) rfl

theorem spotEarningsSum_completeApply (s : SysState) (now rid : Nat)
    (hsp : (s.reservations rid).spotId < s.nextSpotId) :
    spotEarningsSum (completeApply s now rid)
      = spotEarningsSum s + (actualCostOf s now rid - platformFeeOf s now rid) := by
  have h := sum_point_update s.spots
    ({ s.spots (s.reservations rid).spotId with
       isOccupied := false, currentUser := 0,
       totalEarnings := (s.spots (s.reservations rid).spotId).totalEarnings
         + (actualCostOf s now rid - platformFeeOf s now rid) })
    ParkingSpot.totalEarnings hsp
  have h2 : ParkingSpot.totalEarnings
      ({ s.spots (s.reservations rid).spotId with
         isOccupied := false, currentUser := 0,
         totalEarnings := (s.spots (s.reservations rid).spotId).totalEarnings
           + (actualCostOf s now rid - platformFeeOf s now rid) })
      = ParkingSpot.totalEarnings (s.spots (s.reservations rid).spotId)
        + (actualCostOf s now rid - platformFeeOf s now rid) := rfl
  show (∑ i in Finset.range s.nextSpotId, ParkingSpot.totalEarnings
      (if i = (s.reservations rid).spotId then
        { s.spots (s.reservations rid).spotId with
          isOccupied := false, currentUser := 0,
          totalEarnings := (s.spots (s.reservations rid).spotId).totalEarnings
            + (actualCostOf s now rid - platformFeeOf s now rid) }
        else s.spots i))
    = (∑ i in Finset.range s.nextSpotId, ParkingSpot.totalEarnings (s.spots i))
      + (actualCostOf s now rid - platformFeeOf s now rid)
  omega

theorem completedCostSum_completeApply (s : SysState) (now rid : Nat)
    (hrid : rid < s.nextReservationId)
    (hActive : (s.reservations rid).status = .Active) :
    completedCostSum (completeApply s now rid)
      = completedCostSum s + actualCostOf s now rid := by
  have h := sum_point_update s.reservations
    ({ s.reservations rid with
       actualEndTime := now, status := .Completed,
       actualCost := actualCostOf s now rid })
    (fun r => if r.status = ReservationStatus.Completed then r.actualCost else 0) hrid
  have hold : (fun r => if r.status = ReservationStatus.Completed then r.actualCost else 0)
      (s.reservations rid) = 0 := by simp [hActive]
  have hnew : (fun r => if r.status = ReservationStatus.Completed then r.actualCost else 0)
      ({ s.reservations rid with
         actualEndTime := now, status := .Completed,
         actualCost := actualCostOf s now rid }) = actualCostOf s now rid := by simp
  show (∑ i in Finset.range s.nextReservationId,
      (fun r => if r.status = ReservationStatus.Completed then r.actualCost else 0)
        (if i = rid then
          { s.reservations rid with
            actualEndTime := now, status := .Completed,
            actualCost := actualCostOf s now rid }
          else s.reservations i))
    = (∑ i in Finset.range s.nextReservationId,
        (fun r => if r.status = ReservationStatus.Completed then r.actualCost else 0)
          (s.reservations i)) + actualCostOf s now rid
  omega

theorem cancelledFeeSum_completeApply (s : SysState) (now rid : Nat)
    (hActive : (s.reservations rid).status = .Active) :
    cancelledFeeSum (completeApply s now rid) = cancelledFeeSum s := by
  show (∑ i in Finset.range s.nextReservationId,
      (fun r => if r.status = ReservationStatus.Cancelled then r.totalCost * 5 / 100 else 0)
        (if i = rid then
          { s.reservations rid with
            actualEndTime := now, status := .Completed,
            actualCost := actualCostOf s now rid }
          else s.reservations i))
    = ∑ i in Finset.range s.nextReservationId,
      (fun r => if r.status = ReservationStatus.Cancelled then r.totalCost * 5 / 100 else 0)
        (s.reservations i)
  exact sum_update_preserve s.reservations s.nextReservationId rid
    ({ s.reservations rid with
       actualEndTime := now, status := .Completed,
       actualCost := actualCostOf s now rid })
    (fun r => if r.status = ReservationStatus.Cancelled then r.totalCost * 5 / 100 else 0)
    (by simp [hActive])

theorem spotEarningsSum_cancelApply (s : SysState) (caller rid : Nat) :
    spotEarningsSum (cancelApply s caller rid) = spotEarningsSum s := by
  show (∑ i in Finset.range s.nextSpotId, ParkingSpot.totalEarnings
      (if i = (s.reservations rid).spotId then
        { s.spots (s.reservations rid).spotId with reservationEnd := 0 }
        else s.spots i))
    = ∑ i in Finset.range s.nextSpotId, ParkingSpot.totalEarnings (s.spots i)
  exact sum_update_preserve s.spots s.nextSpotId _ _ ParkingSpot.totalEarnings rfl

theorem completedCostSum_cancelApply (s : SysState) (caller rid : Nat)
    (hActive : (s.reservations rid).status = .Active) :
    completedCostSum (cancelApply s caller rid) = completedCostSum s := by
  show (∑ i in Finset.range s.nextReservationId,
      (fun r => if r.status = ReservationStatus.Completed then r.actualCost else 0)
        (if i = rid then { s.reservations rid with status := .Cancelled }
          else s.reservations i))
    = ∑ i in Finset.range s.nextReservationId,
      (fun r => if r.status = ReservationStatus.Completed then r.actualCost else 0)
        (s.reservations i)
  exact sum_update_preserve s.reservations s.nextReservationId rid
    ({ s.reservations rid with status := .Cancelled })
    (fun r => if r.status = ReservationStatus.Completed then r.actualCost else 0)
    (by simp [hActive])

theorem cancelledFeeSum_cancelApply (s : SysState) (caller rid : Nat)
    (hrid : rid < s.nextReservationId)
    (hActive : (s.reservations rid).status = .Active) :
    cancelledFeeSum (cancelApply s caller rid)
      = cancelledFeeSum s + cancellationFeeOf s rid := by
  have h := sum_point_update s.reservations
    ({ s.reservations rid with status := .Cancelled })
    (fun r => if r.status = ReservationStatus.Cancelled then r.totalCost * 5 / 100 else 0)
    hrid
  have hold : (fun r => if r.status = ReservationStatus.Cancelled then r.totalCost * 5 / 100 else 0)
      (s.reservations rid) = 0 := by simp [hActive]
  have hnew : (fun r => if r.status = ReservationStatus.Cancelled then r.totalCost * 5 / 100 else 0)
      ({ s.reservations rid with status := .Cancelled })
      = cancellationFeeOf s rid := by simp [cancellationFeeOf]
  show (∑ i in Finset.range s.nextReservationId,
      (fun r => if r.status = ReservationStatus.Cancelled then r.totalCost * 5 / 100 else 0)
        (if i = rid then { s.reservations rid with status := .Cancelled }
          else s.reservations i))
    = (∑ i in Finset.range s.nextReservationId,
        (fun r => if r.status = ReservationStatus.Cancelled then r.totalCost * 5 / 100 else 0)
          (s.reservations i)) + cancellationFeeOf s rid
  omega

/-- The platform fee never exceeds the actual cost while the fee
percentage is at most 100. -/
theorem platformFeeOf_le (s : SysState) (now rid : Nat)
    (hfee : s.platformFeePercentage ≤ 100) :
    platformFeeOf s now rid ≤ actualCostOf s now rid := by
  unfold platformFeeOf
  calc actualCostOf s now rid * s.platformFeePercentage / 100
      ≤ actualCostOf s now rid * 100 / 100 :=
        Nat.div_le_div_right (Nat.mul_le_mul_left _ hfee)
    _ = actualCostOf s now rid := by omega

/-! ## The bookkeeping invariant is inductive -/

theorem sysInv_init (deployer oracleAddr : Nat) :
    SysInv (initState deployer oracleAddr) := by
  refine ⟨by show (10 : Nat) ≤ 20; decide, by show (1 : Nat) ≤ 1; decide,
    by show (1 : Nat) ≤ 1; decide, ?_, ?_, ?_⟩
  · intro i hw
    exact absurd hw (by simp [initState])
  · intro j hj
    show (defaultReservation).spotId < 1
    decide
  · show spotEarningsSum (initState deployer oracleAddr) + 0 + 0
      = completedCostSum (initState deployer oracleAddr)
        + cancelledFeeSum (initState deployer oracleAddr)
    simp [spotEarningsSum, completedCostSum, cancelledFeeSum, initState,
      defaultSpot, defaultReservation]

theorem sysInv_createSpotApply {s : SysState} (hInv : SysInv s)
    (loc : String) (rate : Nat) : SysInv (createSpotApply s loc rate) := by
  refine ⟨hInv.feeBound, ?_, hInv.ridPos, ?_, ?_, ?_⟩
  · show 1 ≤ s.nextSpotId + 1
    omega
  · intro i hw
    show i < s.nextSpotId + 1
    by_cases hin : i = s.nextSpotId
    · omega
    · have hw' : s.spotWritten i = true := by
        simpa [createSpotApply, hin] using hw
      have := hInv.writtenBound i hw'
      omega
  · intro j hj
    show (s.reservations j).spotId < s.nextSpotId + 1
    have := hInv.ridSpotBound j hj
    omega
  · show spotEarningsSum (createSpotApply s loc rate)
        + s.totalPlatformEarnings + s.withdrawn
      = completedCostSum (createSpotApply s loc rate)
        + cancelledFeeSum (createSpotApply s loc rate)
    rw [spotEarningsSum_createSpotApply]
    exact hInv.conserve

theorem sysInv_reserveApply {s : SysState} (hInv : SysInv s)
    {c now v sp st en : Nat} (hw : s.spotWritten sp = true) :
    SysInv (reserveApply s c now v sp st en) := by
  refine ⟨hInv.feeBound, hInv.spotIdPos, ?_, hInv.writtenBound, ?_, ?_⟩
  · show 1 ≤ s.nextReservationId + 1
    omega
  · intro j hj
    have hj' : j < s.nextReservationId + 1 := hj
    show (if j = s.nextReservationId then newReservationRec s c v sp st en
      else s.reservations j).spotId < s.nextSpotId
    by_cases hjn : j = s.nextReservationId
    · rw [if_pos hjn]
      exact hInv.writtenBound sp hw
    · rw [if_neg hjn]
      exact hInv.ridSpotBound j (by omega)
  · rw [spotEarningsSum_reserveApply, completedCostSum_reserveApply,
      cancelledFeeSum_reserveApply]
    exact hInv.conserve

theorem sysInv_startApply {s : SysState} (hInv : SysInv s) (now rid : Nat) :
    SysInv (startApply s now rid) := by
  refine ⟨hInv.feeBound, hInv.spotIdPos, hInv.ridPos, hInv.writtenBound, ?_, ?_⟩
  · intro j hj
    show (if j = rid then { s.reservations rid with actualStartTime := now }
      else s.reservations j).spotId < s.nextSpotId
    by_cases hjr : j = rid
    · subst hjr
      rw [if_pos rfl]
      exact hInv.ridSpotBound j hj
    · rw [if_neg hjr]
      exact hInv.ridSpotBound j hj
  · rw [spotEarningsSum_startApply, completedCostSum_startApply,
      cancelledFeeSum_startApply]
    exact hInv.conserve

theorem sysInv_completeApply {s : SysState} (hInv : SysInv s) {now rid : Nat}
    (hrid : rid < s.nextReservationId)
    (hActive : (s.reservations rid).status = .Active) :
    SysInv (completeApply s now rid) := by
  refine ⟨hInv.feeBound, hInv.spotIdPos, hInv.ridPos, hInv.writtenBound, ?_, ?_⟩
  · intro j hj
    show (if j = rid then
      { s.reservations rid with
        actualEndTime := now, status := .Completed,
        actualCost := actualCostOf s now rid }
      else s.reservations j).spotId < s.nextSpotId
    by_cases hjr : j = rid
    · subst hjr
      rw [if_pos rfl]
      exact hInv.ridSpotBound j hj
    · rw [if_neg hjr]
      exact hInv.ridSpotBound j hj
  · have hfee : platformFeeOf s now rid ≤ actualCostOf s now rid :=
      platformFeeOf_le s now rid (le_trans hInv.feeBound (by omega))
    have h1 := spotEarningsSum_completeApply s now rid (hInv.ridSpotBound rid hrid)
    have h2 := completedCostSum_completeApply s now rid hrid hActive
    have h3 := cancelledFeeSum_completeApply s now rid hActive
    have hc := hInv.conserve
    show spotEarningsSum (completeApply s now rid)
        + (s.totalPlatformEarnings + platformFeeOf s now rid) + s.withdrawn
      = completedCostSum (completeApply s now rid)
        + cancelledFeeSum (completeApply s now rid)
    omega

theorem sysInv_cancelApply {s : SysState} (hInv : SysInv s) {caller rid : Nat}
    (hrid : rid < s.nextReservationId)
    (hActive : (s.reservations rid).status = .Active) :
    SysInv (cancelApply s caller rid) := by
  refine ⟨hInv.feeBound, hInv.spotIdPos, hInv.ridPos, hInv.writtenBound, ?_, ?_⟩
  · intro j hj
    show (if j = rid then { s.reservations rid with status := .Cancelled }
      else s.reservations j).spotId < s.nextSpotId
    by_cases hjr : j = rid
    · subst hjr
      rw [if_pos rfl]
      exact hInv.ridSpotBound j hj
    · rw [if_neg hjr]
      exact hInv.ridSpotBound j hj
  · have h1 := spotEarningsSum_cancelApply s caller rid
    have h2 := completedCostSum_cancelApply s caller rid hActive
    have h3 := cancelledFeeSum_cancelApply s caller rid hrid hActive
    have hc := hInv.conserve
    show spotEarningsSum (cancelApply s caller rid)
        + (s.totalPlatformEarnings + cancellationFeeOf s rid) + s.withdrawn
      = completedCostSum (cancelApply s caller rid)
        + cancelledFeeSum (cancelApply s caller rid)
    omega

theorem sysInv_withdraw {s : SysState} (hInv : SysInv s) :
    SysInv { s with
      totalPlatformEarnings := 0
      withdrawn := s.withdrawn + s.totalPlatformEarnings
      transfers := (s.owner, s.totalPlatformEarnings) :: s.transfers } := by
  refine ⟨hInv.feeBound, hInv.spotIdPos, hInv.ridPos, hInv.writtenBound,
    hInv.ridSpotBound, ?_⟩
  have hc := hInv.conserve
  show spotEarningsSum s + 0 + (s.withdrawn + s.totalPlatformEarnings)
    = completedCostSum s + cancelledFeeSum s
  omega

/-- Every single non-reverting `ParkingSystem` transaction preserves the
bookkeeping invariant. -/
theorem sysInv_step {s s' : SysState} (hs : Step s s') (hInv : SysInv s) :
    SysInv s' := by
  cases hs with
  | create caller loc rate h =>
    obtain ⟨-, -, rfl⟩ := createParkingSpot_ok h
    exact sysInv_createSpotApply hInv loc rate
  | reserve caller now value spotId startTime endTime h =>
    obtain ⟨-, hw, -, -, -, -, -, -, -, -, rfl⟩ := reserveSpot_ok h
    exact sysInv_reserveApply hInv hw
  | start caller now rid h =>
    obtain ⟨-, -, -, -, rfl⟩ := startReservation_ok h
    exact sysInv_startApply hInv now rid
  | complete caller now rid h =>
    obtain ⟨-, hrid, hActive, -, -, -, rfl⟩ := completeReservation_ok h
    exact sysInv_completeApply hInv hrid hActive
  | cancel caller now rid h =>
    obtain ⟨hrid, -, hActive, -, -, rfl⟩ := cancelReservation_ok h
    exact sysInv_cancelApply hInv hrid hActive
  | setFee caller pct h =>
    obtain ⟨-, hp, rfl⟩ := updatePlatformFee_ok h
    exact ⟨hp, hInv.spotIdPos, hInv.ridPos, hInv.writtenBound,
      hInv.ridSpotBound, hInv.conserve⟩
  | setOracle caller newOracle h =>
    obtain ⟨-, -, rfl⟩ := updateOracle_ok h
    exact ⟨hInv.feeBound, hInv.spotIdPos, hInv.ridPos, hInv.writtenBound,
      hInv.ridSpotBound, hInv.conserve⟩
  | withdraw caller h =>
    obtain ⟨-, rfl⟩ := withdrawPlatformEarnings_ok h
    exact sysInv_withdraw hInv
  | doPause caller h =>
    obtain ⟨-, rfl⟩ := pauseSystem_ok h
    exact ⟨hInv.feeBound, hInv.spotIdPos, hInv.ridPos, hInv.writtenBound,
      hInv.ridSpotBound, hInv.conserve⟩
  | doUnpause caller h =>
    obtain ⟨-, rfl⟩ := unpauseSystem_ok h
    exact ⟨hInv.feeBound, hInv.spotIdPos, hInv.ridPos, hInv.writtenBound,
      hInv.ridSpotBound, hInv.conserve⟩
  | ownerChange caller newOwner h =>
    obtain ⟨-, rfl⟩ := transferSystemOwner_ok h
    exact ⟨hInv.feeBound, hInv.spotIdPos, hInv.ridPos, hInv.writtenBound,
      hInv.ridSpotBound, hInv.conserve⟩

/-- The bookkeeping invariant holds in every reachable state. -/
theorem sysInv_reach {s : SysState} (h : Reach s) : SysInv s := by
  induction h with
  | init deployer oracleAddr => exact sysInv_init deployer oracleAddr
  | step hr hs ih => exact sysInv_step hs ih

/-! ## The horizon discipline in cancellation-free runs -/

theorem reserveApply_spots_end (s : SysState) (c now v sp st en k : Nat) :
    ((reserveApply s c now v sp st en).spots k).reservationEnd
      = if k = sp then en else (s.spots k).reservationEnd := by
  by_cases h : k = sp <;> simp [reserveApply, h]

theorem startApply_spots_end (s : SysState) (now rid k : Nat) :
    ((startApply s now rid).spots k).reservationEnd
      = (s.spots k).reservationEnd := by
  by_cases h : k = (s.reservations rid).spotId <;> simp [startApply, h]

theorem completeApply_spots_end (s : SysState) (now rid k : Nat) :
    ((completeApply s now rid).spots k).reservationEnd
      = (s.spots k).reservationEnd := by
  by_cases h : k = (s.reservations rid).spotId <;> simp [completeApply, h]

theorem startApply_reservations (s : SysState) (now rid j : Nat) :
    (startApply s now rid).reservations j
      = if j = rid then { s.reservations rid with actualStartTime := now }
        else s.reservations j := rfl

theorem completeApply_reservations (s : SysState) (now rid j : Nat) :
    (completeApply s now rid).reservations j
      = if j = rid then
          { s.reservations rid with
            actualEndTime := now, status := .Completed,
            actualCost := actualCostOf s now rid }
        else s.reservations j := rfl

theorem reserveApply_reservations (s : SysState) (c now v sp st en j : Nat) :
    (reserveApply s c now v sp st en).reservations j
      = if j = s.nextReservationId then newReservationRec s c v sp st en
        else s.reservations j := rfl

theorem horizonInv_init (deployer oracleAddr : Nat) :
    HorizonInv (initState deployer oracleAddr) := by
  constructor
  · intro j hj hact
    exact Nat.zero_le _
  · intro i j hi hj hij hsp hai haj
    have hi' : i < 1 := hi
    have hj' : j < 1 := hj
    omega

theorem horizonInv_createSpotApply {s : SysState} (hInv : SysInv s)
    (hH : HorizonInv s) (loc : String) (rate : Nat) :
    HorizonInv (createSpotApply s loc rate) := by
  constructor
  · intro j hj hact
    have hj' : j < s.nextReservationId := hj
    have hact' : (s.reservations j).status = .Active := hact
    have h0 := hH.horizon j hj' hact'
    have hlt := hInv.ridSpotBound j hj'
    show (s.reservations j).endTime
      ≤ ((if (s.reservations j).spotId = s.nextSpotId then newSpotRec s loc rate
          else s.spots (s.reservations j).spotId)).reservationEnd
    rw [if_neg (Nat.ne_of_lt hlt)]
    exact h0
  · intro i j hi hj hij hsp hai haj
    exact hH.disjoint i j hi hj hij hsp hai haj

theorem newReservationRec_fields (s : SysState) (c v sp st en : Nat) :
    (newReservationRec s c v sp st en).endTime = en ∧
    (newReservationRec s c v sp st en).startTime = st ∧
    (newReservationRec s c v sp st en).spotId = sp ∧
    (newReservationRec s c v sp st en).status = .Active := by
  simp [newReservationRec]

theorem horizonInv_reserveApply {s : SysState} (hInv : SysInv s)
    (hH : HorizonInv s) {c now v sp st en : Nat}
    (hhor : (s.spots sp).reservationEnd ≤ st) (hlt : st < en) :
    HorizonInv (reserveApply s c now v sp st en) := by
  have hnew := newReservationRec_fields s c v sp st en
  constructor
  · intro j hj hact
    have hj' : j < s.nextReservationId + 1 := hj
    by_cases hjn : j = s.nextReservationId
    · have ej : (reserveApply s c now v sp st en).reservations j
          = newReservationRec s c v sp st en := by
        rw [reserveApply_reservations, if_pos hjn]
      rw [ej, hnew.1, hnew.2.2.1, reserveApply_spots_end, if_pos rfl]
    · have ej : (reserveApply s c now v sp st en).reservations j
          = s.reservations j := by
        rw [reserveApply_reservations, if_neg hjn]
      rw [ej] at hact ⊢
      rw [reserveApply_spots_end]
      have h0 := hH.horizon j (by omega) hact
      by_cases hjs : (s.reservations j).spotId = sp
      · rw [if_pos hjs]
        rw [hjs] at h0
        omega
      · rw [if_neg hjs]
        exact h0
  · intro i j hi hj hij hsp hai haj
    have hi' : i < s.nextReservationId + 1 := hi
    have hj' : j < s.nextReservationId + 1 := hj
    by_cases hin : i = s.nextReservationId <;> by_cases hjn : j = s.nextReservationId
    · exact absurd (hin.trans hjn.symm) hij
    · have ei : (reserveApply s c now v sp st en).reservations i
          = newReservationRec s c v sp st en := by
        rw [reserveApply_reservations, if_pos hin]
      have ej : (reserveApply s c now v sp st en).reservations j
          = s.reservations j := by
        rw [reserveApply_reservations, if_neg hjn]
      rw [ei] at hsp hai
      rw [ej] at hsp haj
      rw [ei, ej]
      rw [hnew.2.2.1] at hsp
      have h0 := hH.horizon j (by omega) haj
      rw [← hsp] at h0
      right
      rw [hnew.2.1]
      omega
    · have ei : (reserveApply s c now v sp st en).reservations i
          = s.reservations i := by
        rw [reserveApply_reservations, if_neg hin]
      have ej : (reserveApply s c now v sp st en).reservations j
          = newReservationRec s c v sp st en := by
        rw [reserveApply_reservations, if_pos hjn]
      rw [ei] at hsp hai
      rw [ej] at hsp haj
      rw [ei, ej]
      rw [hnew.2.2.1] at hsp
      have h0 := hH.horizon i (by omega) hai
      rw [hsp] at h0
      left
      rw [hnew.2.1]
      omega
    · have ei : (reserveApply s c now v sp st en).reservations i
          = s.reservations i := by
        rw [reserveApply_reservations, if_neg hin]
      have ej : (reserveApply s c now v sp st en).reservations j
          = s.reservations j := by
        rw [reserveApply_reservations, if_neg hjn]
      rw [ei] at hsp hai
      rw [ej] at hsp haj
      rw [ei, ej]
      exact hH.disjoint i j (by omega) (by omega) hij hsp hai haj

theorem startApply_res_fields (s : SysState) (now rid j : Nat) :
    ((startApply s now rid).reservations j).endTime = (s.reservations j).endTime ∧
    ((startApply s now rid).reservations j).startTime = (s.reservations j).startTime ∧
    ((startApply s now rid).reservations j).spotId = (s.reservations j).spotId ∧
    ((startApply s now rid).reservations j).status = (s.reservations j).status := by
  by_cases h : j = rid <;> simp [startApply, h]

theorem horizonInv_startApply {s : SysState} (hH : HorizonInv s) (now rid : Nat) :
    HorizonInv (startApply s now rid) := by
  constructor
  · intro j hj hact
    have hj' : j < s.nextReservationId := hj
    have f := startApply_res_fields s now rid j
    rw [f.2.2.2] at hact
    rw [f.1, f.2.2.1, startApply_spots_end]
    exact hH.horizon j hj' hact
  · intro i j hi hj hij hsp hai haj
    have fi := startApply_res_fields s now rid i
    have fj := startApply_res_fields s now rid j
    rw [fi.2.2.1, fj.2.2.1] at hsp
    rw [fi.2.2.2] at hai
    rw [fj.2.2.2] at haj
    rw [fi.1, fi.2.1, fj.1, fj.2.1]
    exact hH.disjoint i j hi hj hij hsp hai haj

theorem completeApply_res_untouched (s : SysState) (now rid j : Nat)
    (hjr : j ≠ rid) :
    (completeApply s now rid).reservations j = s.reservations j := by
  simp [completeApply, hjr]

theorem completeApply_res_status_rid (s : SysState) (now rid : Nat) :
    ((completeApply s now rid).reservations rid).status = .Completed := by
  simp [completeApply]

theorem horizonInv_completeApply {s : SysState} (hH : HorizonInv s)
    (now rid : Nat) : HorizonInv (completeApply s now rid) := by
  constructor
  · intro j hj hact
    have hj' : j < s.nextReservationId := hj
    by_cases hjr : j = rid
    · subst hjr
      rw [completeApply_res_status_rid] at hact
      exact absurd hact (by decide)
    · rw [completeApply_res_untouched s now rid j hjr] at hact ⊢
      rw [completeApply_spots_end]
      exact hH.horizon j hj' hact
  · intro i j hi hj hij hsp hai haj
    by_cases hir : i = rid
    · subst hir
      rw [completeApply_res_status_rid] at hai
      exact absurd hai (by decide)
    · by_cases hjr : j = rid
      · subst hjr
        rw [completeApply_res_status_rid] at haj
        exact absurd haj (by decide)
      · rw [completeApply_res_untouched s now rid i hir] at hai hsp ⊢
        rw [completeApply_res_untouched s now rid j hjr] at haj hsp ⊢
        exact hH.disjoint i j hi hj hij hsp hai haj

/-- Every non-cancelling transaction preserves the horizon discipline. -/
theorem horizonInv_step {s s' : SysState} (hs : Step s s') (hInv : SysInv s)
    (hH : HorizonInv s) (hc : s'.cancels = 0) : HorizonInv s' := by
  cases hs with
  | create caller loc rate h =>
    obtain ⟨-, -, rfl⟩ := createParkingSpot_ok h
    exact horizonInv_createSpotApply hInv hH loc rate
  | reserve caller now value spotId startTime endTime h =>
    obtain ⟨-, -, -, -, -, hlt, -, -, hhor, -, rfl⟩ := reserveSpot_ok h
    exact horizonInv_reserveApply hInv hH hhor hlt
  | start caller now rid h =>
    obtain ⟨-, -, -, -, rfl⟩ := startReservation_ok h
    exact horizonInv_startApply hH now rid
  | complete caller now rid h =>
    obtain ⟨-, -, -, -, -, -, rfl⟩ := completeReservation_ok h
    exact horizonInv_completeApply hH now rid
  | cancel caller now rid h =>
    obtain ⟨-, -, -, -, -, rfl⟩ := cancelReservation_ok h
    have : s.cancels + 1 = 0 := hc
    omega
  | setFee caller pct h =>
    obtain ⟨-, -, rfl⟩ := updatePlatformFee_ok h
    exact ⟨hH.horizon, hH.disjoint⟩
  | setOracle caller newOracle h =>
    obtain ⟨-, -, rfl⟩ := updateOracle_ok h
    exact ⟨hH.horizon, hH.disjoint⟩
  | withdraw caller h =>
    obtain ⟨-, rfl⟩ := withdrawPlatformEarnings_ok h
    exact ⟨hH.horizon, hH.disjoint⟩
  | doPause caller h =>
    obtain ⟨-, rfl⟩ := pauseSystem_ok h
    exact ⟨hH.horizon, hH.disjoint⟩
  | doUnpause caller h =>
    obtain ⟨-, rfl⟩ := unpauseSystem_ok h
    exact ⟨hH.horizon, hH.disjoint⟩
  | ownerChange caller newOwner h =>
    obtain ⟨-, rfl⟩ := transferSystemOwner_ok h
    exact ⟨hH.horizon, hH.disjoint⟩

/-- `cancels` never decreases along a step. -/
theorem step_cancels_le {s s' : SysState} (hs : Step s s') :
    s.cancels ≤ s'.cancels := by
  cases hs with
  | create caller loc rate h =>
    obtain ⟨-, -, rfl⟩ := createParkingSpot_ok h
    exact Nat.le_refl _
  | reserve caller now value spotId startTime endTime h =>
    obtain ⟨-, -, -, -, -, -, -, -, -, -, rfl⟩ := reserveSpot_ok h
    exact Nat.le_refl _
  | start caller now rid h =>
    obtain ⟨-, -, -, -, rfl⟩ := startReservation_ok h
    exact Nat.le_refl _
  | complete caller now rid h =>
    obtain ⟨-, -, -, -, -, -, rfl⟩ := completeReservation_ok h
    exact Nat.le_refl _
  | cancel caller now rid h =>
    obtain ⟨-, -, -, -, -, rfl⟩ := cancelReservation_ok h
    exact Nat.le_succ _
  | setFee caller pct h =>
    obtain ⟨-, -, rfl⟩ := updatePlatformFee_ok h
    exact Nat.le_refl _
  | setOracle caller newOracle h =>
    obtain ⟨-, -, rfl⟩ := updateOracle_ok h
    exact Nat.le_refl _
  | withdraw caller h =>
    obtain ⟨-, rfl⟩ := withdrawPlatformEarnings_ok h
    exact Nat.le_refl _
  | doPause caller h =>
    obtain ⟨-, rfl⟩ := pauseSystem_ok h
    exact Nat.le_refl _
  | doUnpause caller h =>
    obtain ⟨-, rfl⟩ := unpauseSystem_ok h
    exact Nat.le_refl _
  | ownerChange caller newOwner h =>
    obtain ⟨-, rfl⟩ := transferSystemOwner_ok h
    exact Nat.le_refl _

/-- In every reachable state that no successful cancellation has touched,
the horizon discipline (and with it mutual exclusion of `Active`
windows) holds. -/
theorem horizonInv_reach {s : SysState} (h : Reach s) :
    s.cancels = 0 → HorizonInv s := by
  induction h with
  | init deployer oracleAddr => exact fun _ => horizonInv_init deployer oracleAddr
  | @step s1 s2 hr hs ih =>
    intro hc
    have hle := step_cancels_le hs
    have hc0 : s1.cancels = 0 := by omega
    exact horizonInv_step hs (sysInv_reach hr) (ih hc0) hc

/-! ## Reachability of the concrete runs -/

theorem reach_cS0 : Reach cS0 := Reach.init 1 2

theorem reach_cS1 : Reach cS1 :=
  Reach.step reach_cS0 (Step.create 1 "A1" 3600 rfl)

theorem reach_cS2 : Reach cS2 :=
  Reach.step reach_cS1 (Step.reserve 3 0 3600 1 10 3610 rfl)

theorem reach_cS3 : Reach cS3 :=
  Reach.step reach_cS2 (Step.cancel 3 0 1 rfl)

theorem reach_cS4 : Reach cS4 :=
  Reach.step reach_cS2 (Step.reserve 3 0 3600 1 3610 7210 rfl)

theorem reach_cS5 : Reach cS5 :=
  Reach.step reach_cS4 (Step.cancel 3 0 2 rfl)

theorem reach_cS6 : Reach cS6 :=
  Reach.step reach_cS5 (Step.reserve 3 0 3600 1 10 3610 rfl)

theorem reach_cW3 : Reach cW3 :=
  Reach.step reach_cS2 (Step.start 2 10 1 rfl)

theorem reach_cW4 : Reach cW4 :=
  Reach.step reach_cW3 (Step.complete 2 1810 1 rfl)

theorem reach_cW5 : Reach cW5 :=
  Reach.step reach_cW3 (Step.complete 2 7210 1 rfl)

/-! ## Projection helpers for the settlement and cancellation paths -/

theorem completeApply_res_rid (s : SysState) (now rid : Nat) :
    (completeApply s now rid).reservations rid
      = { s.reservations rid with
          actualEndTime := now, status := .Completed,
          actualCost := actualCostOf s now rid } := by
  simp [completeApply]

theorem completeApply_spot_sid (s : SysState) (now rid : Nat) :
    (completeApply s now rid).spots (s.reservations rid).spotId
      = { s.spots (s.reservations rid).spotId with
          isOccupied := false, currentUser := 0,
          totalEarnings := (s.spots (s.reservations rid).spotId).totalEarnings
            + (actualCostOf s now rid - platformFeeOf s now rid) } := by
  simp [completeApply]

theorem completeApply_transfers (s : SysState) (now rid : Nat) :
    (completeApply s now rid).transfers
      = if actualCostOf s now rid < (s.reservations rid).totalCost then
          ((s.reservations rid).user,
            (s.reservations rid).totalCost - actualCostOf s now rid) :: s.transfers
        else s.transfers := rfl

theorem completeApply_platform (s : SysState) (now rid : Nat) :
    (completeApply s now rid).totalPlatformEarnings
      = s.totalPlatformEarnings + platformFeeOf s now rid := rfl

theorem cancelApply_res_rid (s : SysState) (caller rid : Nat) :
    (cancelApply s caller rid).reservations rid
      = { s.reservations rid with status := .Cancelled } := by
  simp [cancelApply]

theorem cancelApply_spot_sid (s : SysState) (caller rid : Nat) :
    (cancelApply s caller rid).spots (s.reservations rid).spotId
      = { s.spots (s.reservations rid).spotId with reservationEnd := 0 } := by
  simp [cancelApply]

/-! ## Claim C1 — financial conservation -/

/-- C1, as stated, is false of the code: in the reachable state `cS3`
(one spot created, one reservation booked and then cancelled) the
platform holds the 180 wei cancellation fee although no reservation was
ever completed, so `sum(spot.totalEarnings) + platformEarnings` differs
from `sum(actualCost of Completed reservations)`. -/
theorem c1_counterexample :
    Reach cS3 ∧
    spotEarningsSum cS3 + cS3.totalPlatformEarnings ≠ completedCostSum cS3 :=
  ⟨reach_cS3, by decide⟩

/-- C1 (amended): in every reachable state of `ParkingSystem`, the sum
over all spots of `totalEarnings`, plus the platform's current
`totalPlatformEarnings`, plus everything already withdrawn by the owner,
equals the sum of `actualCost` over all `Completed` reservations plus
the sum of the 5% cancellation fees over all `Cancelled` reservations.
(The original claim omitted the cancellation fees and the withdrawals,
both of which move money through `totalPlatformEarnings`.) -/
theorem c1_amended_conservation {s : SysState} (h : Reach s) :
    spotEarningsSum s + s.totalPlatformEarnings + s.withdrawn
      = completedCostSum s + cancelledFeeSum s :=
  (sysInv_reach h).conserve

theorem c1_amended_conservation_witness :
    spotEarningsSum cS3 + cS3.totalPlatformEarnings + cS3.withdrawn
      = completedCostSum cS3 + cancelledFeeSum cS3 :=
  c1_amended_conservation reach_cS3

/-! ## Claim C2 — temporal exclusivity -/

/-- C2, as stated, is false of the code: in the reachable state `cS5`
reservation `1` is still `Active` with `endTime = 3610`, yet
`reserveSpot` with `start = 10 < 3610` succeeds (because the preceding
cancellation of reservation `2` reset the spot's horizon to `0`), and
the resulting reachable state `cS6` carries two `Active` reservations
on spot `1` with identical (hence overlapping) `[10, 3610)` windows. -/
theorem c2_counterexample :
    Reach cS5 ∧
    (cS5.reservations 1).status = .Active ∧
    (cS5.reservations 1).endTime = 3610 ∧
    reserveSpot cS5 3 0 3600 1 10 3610 = Except.ok cS6 ∧
    Reach cS6 ∧
    ¬ noActiveOverlap cS6 := by
  refine ⟨reach_cS5, by decide, by decide, rfl, reach_cS6, ?_⟩
  intro hno
  have h13 := hno 1 3 (by decide) (by decide) (by decide) (by decide)
    (by decide) (by decide)
  revert h13
  decide

/-- C2 (amended): `reserveSpot` enforces exclusivity only against the
spot's current horizon — a successful call always has
`start ≥ reservationEnd`, and when every earlier guard passes but
`start < reservationEnd` it fails exactly with `Overlap`; consequently,
in every reachable state in which no cancellation has ever succeeded
(`cancels = 0`), no two `Active` reservations on the same spot overlap.
After a cancellation the horizon is reset to `0` and overlapping
`Active` reservations become reachable. -/
theorem c2_amended_overlap_guard :
    (∀ (s s' : SysState) (c now v sp st en : Nat),
      reserveSpot s c now v sp st en = Except.ok s' →
      (s.spots sp).reservationEnd ≤ st) ∧
    (∀ (s : SysState) (c now v sp st en : Nat),
      s.paused = false → s.spotWritten sp = true →
      (s.spots sp).isActive = true → (s.spots sp).isOccupied = false →
      now ≤ st → st < en → 3600 ≤ en - st → en - st ≤ 86400 →
      st < (s.spots sp).reservationEnd →
      reserveSpot s c now v sp st en = Except.error SysError.Overlap) ∧
    (∀ s : SysState, Reach s → s.cancels = 0 → noActiveOverlap s) := by
  refine ⟨?_, ?_, ?_⟩
  · intro s s' c now v sp st en h
    exact (reserveSpot_ok h).2.2.2.2.2.2.2.2.1
  · intro s c now v sp st en h1 h2 h3 h4 h5 h6 h7 h8 h9
    unfold reserveSpot
    rw [if_neg (by simp [h1]), if_neg (by simp [h2]), if_neg (by simp [h3]),
      if_neg (by simp [h4]), if_neg (by omega), if_neg (by omega),
      if_neg (by omega), if_neg (by omega), if_pos h9]
  · intro s h hc
    exact (horizonInv_reach h hc).disjoint

theorem c2_amended_overlap_guard_witness :
    (cS1.spots 1).reservationEnd ≤ 10 ∧ noActiveOverlap cS2 :=
  ⟨c2_amended_overlap_guard.1 cS1 cS2 3 0 3600 1 10 3610 rfl,
    c2_amended_overlap_guard.2.2 cS2 reach_cS2 rfl⟩

/-! ## Claim C3 — settlement arithmetic -/

/-- C3: every successful `completeReservation` books
`actualCost = floor((now − actualStartTime) · hourlyRate / 3600)`,
charges `platformFee = floor(actualCost · feePercent / 100)`, credits
the spot with exactly `actualCost − platformFee`, credits the platform
with exactly `platformFee`, and transfers back
`totalCost − actualCost` exactly when `actualCost < totalCost` (the
refund is a `Nat`, hence never negative, and is nonzero only in that
case). -/
theorem c3_settlement {s s' : SysState} {caller now rid : Nat}
    (h : completeReservation s caller now rid = Except.ok s') :
    (s'.reservations rid).actualCost
        = (now - (s.reservations rid).actualStartTime)
          * (s.spots (s.reservations rid).spotId).hourlyRate / 3600 ∧
    (s'.reservations rid).actualEndTime = now ∧
    (s'.reservations rid).status = .Completed ∧
    (s'.spots (s.reservations rid).spotId).totalEarnings
        = (s.spots (s.reservations rid).spotId).totalEarnings
          + (actualCostOf s now rid - platformFeeOf s now rid) ∧
    platformFeeOf s now rid
        = actualCostOf s now rid * s.platformFeePercentage / 100 ∧
    s'.totalPlatformEarnings = s.totalPlatformEarnings + platformFeeOf s now rid ∧
    s'.transfers
        = (if actualCostOf s now rid < (s.reservations rid).totalCost then
            ((s.reservations rid).user,
              (s.reservations rid).totalCost - actualCostOf s now rid) :: s.transfers
          else s.transfers) ∧
    (actualCostOf s now rid < (s.reservations rid).totalCost →
      (s.reservations rid).totalCost - actualCostOf s now rid ≠ 0) ∧
    ((s.reservations rid).totalCost ≤ actualCostOf s now rid →
      s'.transfers = s.transfers) := by
  obtain ⟨-, -, -, -, -, -, rfl⟩ := completeReservation_ok h
  refine ⟨?_, ?_, ?_, ?_, rfl, rfl, rfl, by omega, ?_⟩
  · rw [completeApply_res_rid]
    show actualCostOf s now rid = _
    rfl
  · rw [completeApply_res_rid]
  · rw [completeApply_res_rid]
  · rw [completeApply_spot_sid]
  · intro hle
    rw [completeApply_transfers, if_neg (by omega)]

theorem c3_settlement_witness :
    (cW4.reservations 1).actualCost
        = (1810 - (cW3.reservations 1).actualStartTime)
          * (cW3.spots (cW3.reservations 1).spotId).hourlyRate / 3600 ∧
    cW4.transfers
        = (if actualCostOf cW3 1810 1 < (cW3.reservations 1).totalCost then
            ((cW3.reservations 1).user,
              (cW3.reservations 1).totalCost - actualCostOf cW3 1810 1) :: cW3.transfers
          else cW3.transfers) :=
  ⟨(@c3_settlement cW3 cW4 2 1810 1 rfl).1,
   (@c3_settlement cW3 cW4 2 1810 1 rfl).2.2.2.2.2.2.1⟩

/-! ## Claim C4 — cancellation precondition -/

/-- C4, as stated, is false of the code: in the reachable state `cS2`,
reservation `1` is `Active`, not started, and the caller `3` is its
requester, yet `cancelReservation` at `block.timestamp = 10` fails,
because the code additionally requires
`block.timestamp < reservation.startTime` (here `10 < 10` is false) —
a time-based condition beyond "not started" that the claim denies. -/
theorem c4_counterexample :
    Reach cS2 ∧
    1 < cS2.nextReservationId ∧
    (cS2.reservations 1).user = 3 ∧
    (cS2.reservations 1).status = .Active ∧
    (cS2.reservations 1).actualStartTime = 0 ∧
    cancelReservation cS2 3 10 1 = Except.error SysError.TooLateToCancel :=
  ⟨reach_cS2, by decide, by decide, by decide, by decide, rfl⟩

/-- C4 (amended): `cancelReservation` succeeds exactly when the
reservation id exists, the caller is the original requester, the
reservation is `Active`, it has not been started, AND the current time
is still strictly before the booked `startTime`; on success it refunds
`totalCost − floor(totalCost·5/100)`, accrues the 5% fee to the
platform, sets the status to `Cancelled` and resets the spot horizon.
Any violated condition makes the call revert (state unchanged). -/
theorem c4_amended_cancel_spec (s : SysState) (caller now rid : Nat) :
    ((∃ s', cancelReservation s caller now rid = Except.ok s') ↔
      (rid < s.nextReservationId ∧ (s.reservations rid).user = caller ∧
       (s.reservations rid).status = .Active ∧
       (s.reservations rid).actualStartTime = 0 ∧
       now < (s.reservations rid).startTime)) ∧
    (∀ s', cancelReservation s caller now rid = Except.ok s' →
      ((s'.reservations rid).status = .Cancelled ∧
       s'.totalPlatformEarnings
         = s.totalPlatformEarnings + (s.reservations rid).totalCost * 5 / 100 ∧
       s'.transfers = (caller, (s.reservations rid).totalCost
         - (s.reservations rid).totalCost * 5 / 100) :: s.transfers ∧
       (s'.spots (s.reservations rid).spotId).reservationEnd = 0)) := by
  constructor
  · constructor
    · rintro ⟨s', hs'⟩
      obtain ⟨h1, h2, h3, h4, h5, -⟩ := cancelReservation_ok hs'
      exact ⟨h1, h2, h3, h4, h5⟩
    · rintro ⟨h1, h2, h3, h4, h5⟩
      refine ⟨cancelApply s caller rid, ?_⟩
      unfold cancelReservation
      rw [if_neg (by omega), if_neg (by simp [h2]), if_neg (by simp [h3]),
        if_neg (by simp [h4]), if_neg (by omega)]
  · intro s' hs'
    obtain ⟨-, -, -, -, -, rfl⟩ := cancelReservation_ok hs'
    refine ⟨?_, rfl, rfl, ?_⟩
    · rw [cancelApply_res_rid]
    · rw [cancelApply_spot_sid]

theorem c4_amended_cancel_spec_witness :
    (∃ s', cancelReservation cS2 3 0 1 = Except.ok s') ∧
    (cS3.reservations 1).status = .Cancelled :=
  ⟨(c4_amended_cancel_spec cS2 3 0 1).1.mpr
      ⟨by decide, by decide, by decide, by decide, by decide⟩,
    ((c4_amended_cancel_spec cS2 3 0 1).2 cS3 rfl).1⟩

/-! ## Claim C10 — overstay accounting -/

/-- C10: when the recomputed `actualCost` exceeds the escrowed
`totalCost`, `completeReservation` transfers nothing back, leaves
`paidAmount` untouched, and still credits spot earnings plus platform
fee with the full `actualCost` — so the booked earnings exceed the
escrowed funds by exactly `actualCost − totalCost > 0`. -/
theorem c10_overstay {s s' : SysState} {caller now rid : Nat}
    (h : completeReservation s caller now rid = Except.ok s')
    (hfee : s.platformFeePercentage ≤ 100)
    (hover : (s.reservations rid).totalCost < actualCostOf s now rid) :
    s'.transfers = s.transfers ∧
    (s'.reservations rid).paidAmount = (s.reservations rid).paidAmount ∧
    (s'.spots (s.reservations rid).spotId).totalEarnings + s'.totalPlatformEarnings
        = (s.spots (s.reservations rid).spotId).totalEarnings
          + s.totalPlatformEarnings + actualCostOf s now rid ∧
    (s.reservations rid).totalCost
        + (actualCostOf s now rid - (s.reservations rid).totalCost)
      = actualCostOf s now rid ∧
    0 < actualCostOf s now rid - (s.reservations rid).totalCost := by
  obtain ⟨-, -, -, -, -, -, rfl⟩ := completeReservation_ok h
  have hf := platformFeeOf_le s now rid hfee
  refine ⟨?_, ?_, ?_, by omega, by omega⟩
  · rw [completeApply_transfers, if_neg (by omega)]
  · rw [completeApply_res_rid]
  · rw [completeApply_spot_sid, completeApply_platform]
    show (s.spots (s.reservations rid).spotId).totalEarnings
        + (actualCostOf s now rid - platformFeeOf s now rid)
        + (s.totalPlatformEarnings + platformFeeOf s now rid) = _
    omega

theorem c10_overstay_witness :
    cW5.transfers = cW3.transfers ∧
    (cW5.reservations 1).paidAmount = (cW3.reservations 1).paidAmount ∧
    (cW5.spots (cW3.reservations 1).spotId).totalEarnings + cW5.totalPlatformEarnings
        = (cW3.spots (cW3.reservations 1).spotId).totalEarnings
          + cW3.totalPlatformEarnings + actualCostOf cW3 7210 1 ∧
    (cW3.reservations 1).totalCost
        + (actualCostOf cW3 7210 1 - (cW3.reservations 1).totalCost)
      = actualCostOf cW3 7210 1 ∧
    0 < actualCostOf cW3 7210 1 - (cW3.reservations 1).totalCost :=
  @c10_overstay cW3 cW5 2 7210 1 rfl (by decide) (by decide)

/-! ## Reachability of the concrete oracle runs -/

theorem oreach_oS0 : OracleReach oS0 := OracleReach.init 1 7

theorem oreach_oS1 : OracleReach oS1 :=
  OracleReach.step oreach_oS0 (OracleStep.add 1 5 "n1" rfl)

theorem oreach_oS2 : OracleReach oS2 :=
  OracleReach.step oreach_oS1 (OracleStep.update 5 100 1 false 90 "u" 1 .accepted rfl)

theorem oreach_oS3 : OracleReach oS3 :=
  OracleReach.step oreach_oS2 (OracleStep.update 5 130 1 true 75 "u" 2 .softRejected rfl)

theorem oreach_oS4 : OracleReach oS4 :=
  OracleReach.step oreach_oS3 (OracleStep.update 5 160 1 true 85 "u" 2 .accepted rfl)

theorem oreach_oS8 : OracleReach oS8 :=
  OracleReach.step oreach_oS2 (OracleStep.update 5 130 1 false 150 "u" 99 .softRejected rfl)

/-! ## Reputation bookkeeping lemmas -/

theorem penalizedReputation_le (r : Nat) : penalizedReputation r ≤ r := by
  unfold penalizedReputation
  split <;> omega

theorem penalizedReputation_pos (r : Nat) (h : 0 < r) : 0 < penalizedReputation r := by
  unfold penalizedReputation
  split <;> omega

theorem rewardOracle_node (s : OracleState) (a b : Nat) :
    (rewardOracle s a).oracleNodes b
      = if (s.oracleNodes a).reputation < 1000 ∧ b = a then
          { s.oracleNodes a with reputation := (s.oracleNodes a).reputation + 1 }
        else s.oracleNodes b := by
  unfold rewardOracle
  by_cases hlt : (s.oracleNodes a).reputation < 1000 <;>
    by_cases hb : b = a <;> simp [hlt, hb]

theorem penalizeOracle_node (s : OracleState) (a b : Nat) :
    (penalizeOracle s a).oracleNodes b
      = if b = a then
          (if penalizedReputation (s.oracleNodes a).reputation < 100 then
            { s.oracleNodes a with
              reputation := penalizedReputation (s.oracleNodes a).reputation,
              isActive := false }
          else
            { s.oracleNodes a with
              reputation := penalizedReputation (s.oracleNodes a).reputation })
        else s.oracleNodes b := by
  unfold penalizeOracle
  by_cases hc : penalizedReputation (s.oracleNodes a).reputation < 100 <;>
    by_cases hb : b = a <;> simp [hc, hb]

theorem storeReading_node (s : OracleState) (c now sp : Nat) (occ : Bool)
    (cf : Nat) (ty : String) (dh : Nat) (b : Nat) :
    (storeReading s c now sp occ cf ty dh).oracleNodes b
      = if b = c then
          { s.oracleNodes c with
            totalUpdates := (s.oracleNodes c).totalUpdates + 1, lastUpdate := now }
        else s.oracleNodes b := by
  by_cases hb : b = c <;> simp [storeReading, hb]

theorem softRejectApply_node (s : OracleState) (c sp b : Nat) :
    (softRejectApply s c sp).oracleNodes b = (penalizeOracle s c).oracleNodes b := by
  unfold softRejectApply
  rw [penalizeOracle_node, penalizeOracle_node]

theorem acceptApply_node (s : OracleState) (c now sp : Nat) (occ : Bool)
    (cf : Nat) (ty : String) (dh : Nat) (b : Nat) :
    (acceptApply s c now sp occ cf ty dh).oracleNodes b
      = (rewardOracle (storeReading s c now sp occ cf ty dh) c).oracleNodes b := rfl

theorem repBounded_reward {s : OracleState} (h : repBounded s) (a : Nat) :
    repBounded (rewardOracle s a) := by
  intro b
  rw [rewardOracle_node]
  have ha := h a
  have hb := h b
  split
  · next hcond =>
    show (s.oracleNodes a).reputation + 1 ≤ 1000
    omega
  · exact hb

theorem repBounded_penalize {s : OracleState} (h : repBounded s) (a : Nat) :
    repBounded (penalizeOracle s a) := by
  intro b
  rw [penalizeOracle_node]
  have ha := h a
  have hb := h b
  have hple := penalizedReputation_le (s.oracleNodes a).reputation
  by_cases hba : b = a
  · rw [if_pos hba]
    split
    · show penalizedReputation (s.oracleNodes a).reputation ≤ 1000
      omega
    · show penalizedReputation (s.oracleNodes a).reputation ≤ 1000
      omega
  · rw [if_neg hba]
    exact hb

theorem repBounded_events {s : OracleState} (h : repBounded s) (es : List OracleEvent) :
    repBounded { s with events := es } := h

theorem repBounded_storeReading {s : OracleState} (h : repBounded s)
    (c now sp : Nat) (occ : Bool) (cf : Nat) (ty : String) (dh : Nat) :
    repBounded (storeReading s c now sp occ cf ty dh) := by
  intro b
  rw [storeReading_node]
  by_cases hb : b = c
  · rw [if_pos hb]
    exact h c
  · rw [if_neg hb]
    exact h b

theorem repBounded_softRejectApply {s : OracleState} (h : repBounded s)
    (c sp : Nat) : repBounded (softRejectApply s c sp) := by
  intro b
  rw [softRejectApply_node]
  exact repBounded_penalize h c b

theorem repBounded_acceptApply {s : OracleState} (h : repBounded s)
    (c now sp : Nat) (occ : Bool) (cf : Nat) (ty : String) (dh : Nat) :
    repBounded (acceptApply s c now sp occ cf ty dh) := by
  intro b
  rw [acceptApply_node]
  exact repBounded_reward (repBounded_storeReading h c now sp occ cf ty dh) c b

theorem repBounded_oracleStep {s s' : OracleState} (hs : OracleStep s s')
    (h : repBounded s) : repBounded s' := by
  cases hs with
  | add caller node nodeId hops =>
    obtain ⟨-, -, -, rfl⟩ := addOracleNode_ok hops
    intro b
    show (if b = node then _ else s.oracleNodes b).reputation ≤ 1000
    by_cases hb : b = node
    · rw [if_pos hb]
      show (500 : Nat) ≤ 1000
      decide
    · rw [if_neg hb]
      exact h b
  | remove caller node hops =>
    obtain ⟨-, -, rfl⟩ := removeOracleNode_ok hops
    intro b
    show (if b = node then _ else s.oracleNodes b).reputation ≤ 1000
    by_cases hb : b = node
    · rw [if_pos hb]
      exact h node
    · rw [if_neg hb]
      exact h b
  | update caller now spotId isOccupied confidence sensorType dataHash out hops =>
    obtain ⟨-, -, -, -, -, -, -, hout⟩ := updateSensorData_ok hops
    rcases hout with ⟨-, rfl, -⟩ | ⟨-, rfl, -⟩
    · exact repBounded_softRejectApply h caller spotId
    · exact repBounded_acceptApply h caller now spotId isOccupied confidence
        sensorType dataHash
  | setReputation caller node rep hops =>
    obtain ⟨-, hrep, -, rfl⟩ := updateOracleReputation_ok hops
    intro b
    show (if b = node then _ else s.oracleNodes b).reputation ≤ 1000
    by_cases hb : b = node
    · rw [if_pos hb]
      exact hrep
    · rw [if_neg hb]
      exact h b
  | setSystem caller addr hops =>
    obtain ⟨-, -, rfl⟩ := updateParkingSystemContract_ok hops
    exact h
  | doPause caller hops =>
    obtain ⟨-, rfl⟩ := pauseOracle_ok hops
    exact h
  | doUnpause caller hops =>
    obtain ⟨-, rfl⟩ := unpauseOracle_ok hops
    exact h
  | ownerChange caller newOwner hops =>
    obtain ⟨-, rfl⟩ := transferOracleOwner_ok hops
    exact h
  | reward a => exact repBounded_reward h a
  | penalize a => exact repBounded_penalize h a

theorem repBounded_reach {s : OracleState} (h : OracleReach s) : repBounded s := by
  induction h with
  | init deployer sysContract =>
    intro b
    show (defaultOracleNode).reputation ≤ 1000
    decide
  | step hr hs ih => exact repBounded_oracleStep hs ih

/-! ## Inactive nodes stay inactive under trust operations -/

theorem inactive_reward {s : OracleState} {a : Nat} (b : Nat)
    (h : (s.oracleNodes b).isActive = false) :
    ((rewardOracle s a).oracleNodes b).isActive = false := by
  rw [rewardOracle_node]
  split
  · next hcond =>
    rw [hcond.2] at h
    show (s.oracleNodes a).isActive = false
    exact h
  · exact h

theorem inactive_penalize {s : OracleState} {a : Nat} (b : Nat)
    (h : (s.oracleNodes b).isActive = false) :
    ((penalizeOracle s a).oracleNodes b).isActive = false := by
  rw [penalizeOracle_node]
  by_cases hb : b = a
  · rw [if_pos hb]
    subst hb
    split
    · rfl
    · exact h
  · rw [if_neg hb]
    exact h

theorem inactive_storeReading {s : OracleState} {c : Nat} (now sp : Nat)
    (occ : Bool) (cf : Nat) (ty : String) (dh : Nat) (b : Nat)
    (h : (s.oracleNodes b).isActive = false) :
    ((storeReading s c now sp occ cf ty dh).oracleNodes b).isActive = false := by
  rw [storeReading_node]
  by_cases hb : b = c
  · rw [if_pos hb]
    subst hb
    exact h
  · rw [if_neg hb]
    exact h

theorem inactive_trustStep {s s' : OracleState} (hs : TrustStep s s') (a : Nat)
    (ha : (s.oracleNodes a).isActive = false) :
    (s'.oracleNodes a).isActive = false := by
  cases hs with
  | update caller now spotId isOccupied confidence sensorType dataHash out hops =>
    obtain ⟨-, -, -, -, -, -, -, hout⟩ := updateSensorData_ok hops
    rcases hout with ⟨-, rfl, -⟩ | ⟨-, rfl, -⟩
    · rw [softRejectApply_node]
      exact inactive_penalize a ha
    · rw [acceptApply_node]
      exact inactive_reward a (inactive_storeReading now spotId isOccupied
        confidence sensorType dataHash a ha)
  | setReputation caller node rep hops =>
    obtain ⟨-, -, -, rfl⟩ := updateOracleReputation_ok hops
    show (if a = node then _ else s.oracleNodes a).isActive = false
    by_cases hb : a = node
    · rw [if_pos hb]
      subst hb
      exact ha
    · rw [if_neg hb]
      exact ha
  | reward b => exact inactive_reward a ha
  | penalize b => exact inactive_penalize a ha

/-! ## Claim C5 — reputation bounds and auto-deactivation -/

/-- C5: (i) in every reachable oracle state all reputations lie in
`[0, 1000]` (the lower bound is inherent to `Nat`); (ii) a penalty
computes `penalizedReputation` (`−10` only above 10) and deactivates the
node whenever the result is below 100; (iii) `reward` adds 1 only below
the 1000 cap; (iv) a penalty never zeroes a positive reputation; (v) a
node once inactive stays inactive across any sequence of reward,
penalize, sensor-update and owner reputation-override operations; and
(vi) `submitReading` (`updateSensorData`) from an inactive node always
fails with the authorization error. -/
theorem c5_reputation_bounds :
    (∀ s : OracleState, OracleReach s → repBounded s) ∧
    (∀ (s : OracleState) (a : Nat),
      ((penalizeOracle s a).oracleNodes a).reputation
          = penalizedReputation (s.oracleNodes a).reputation ∧
      (((penalizeOracle s a).oracleNodes a).reputation < 100 →
        ((penalizeOracle s a).oracleNodes a).isActive = false)) ∧
    (∀ (s : OracleState) (a : Nat),
      ((rewardOracle s a).oracleNodes a).reputation
        = (if (s.oracleNodes a).reputation < 1000
           then (s.oracleNodes a).reputation + 1
           else (s.oracleNodes a).reputation)) ∧
    (∀ r : Nat, 0 < r → 0 < penalizedReputation r) ∧
    (∀ s s' : OracleState, Relation.ReflTransGen TrustStep s s' → ∀ a,
      (s.oracleNodes a).isActive = false → (s'.oracleNodes a).isActive = false) ∧
    (∀ (s : OracleState) (c now sp : Nat) (occ : Bool) (cf : Nat)
        (ty : String) (dh : Nat),
      (s.oracleNodes c).isActive = false →
      updateSensorData s c now sp occ cf ty dh
        = Except.error OracleError.NotAuthorized) := by
  refine ⟨fun s h => repBounded_reach h, ?_, ?_, penalizedReputation_pos, ?_, ?_⟩
  · intro s a
    constructor
    · rw [penalizeOracle_node, if_pos rfl]
      split
      · rfl
      · rfl
    · intro hlow
      rw [penalizeOracle_node, if_pos rfl] at hlow ⊢
      split at hlow
      · next hc =>
        rw [if_pos hc]
      · next hc =>
        exact absurd hlow hc
  · intro s a
    rw [rewardOracle_node]
    by_cases hlt : (s.oracleNodes a).reputation < 1000
    · rw [if_pos ⟨hlt, rfl⟩, if_pos hlt]
    · rw [if_neg (by simp [hlt]), if_neg hlt]
  · intro s s' h a ha
    induction h with
    | refl => exact ha
    | tail hst hstep ih => exact inactive_trustStep hstep a ih
  · intro s c now sp occ cf ty dh h
    unfold updateSensorData
    rw [if_pos h]

theorem c5_reputation_bounds_witness :
    repBounded oS3 ∧
    updateSensorData (initOracleState 1 7) 9 100 1 false 90 "u" 1
      = Except.error OracleError.NotAuthorized :=
  ⟨c5_reputation_bounds.1 oS3 oreach_oS3,
    c5_reputation_bounds.2.2.2.2.2 (initOracleState 1 7) 9 100 1 false 90 "u" 1 rfl⟩

/-! ## The processed-hash set -/

theorem rewardOracle_processed (s : OracleState) (a : Nat) :
    (rewardOracle s a).processedDataHashes = s.processedDataHashes := by
  unfold rewardOracle
  split <;> rfl

theorem penalizeOracle_processed (s : OracleState) (a : Nat) :
    (penalizeOracle s a).processedDataHashes = s.processedDataHashes := by
  unfold penalizeOracle
  split <;> rfl

theorem softRejectApply_processed (s : OracleState) (c sp : Nat) :
    (softRejectApply s c sp).processedDataHashes = s.processedDataHashes := by
  unfold softRejectApply
  rw [penalizeOracle_processed]

theorem acceptApply_processed (s : OracleState) (c now sp : Nat) (occ : Bool)
    (cf : Nat) (ty : String) (dh d : Nat) :
    (acceptApply s c now sp occ cf ty dh).processedDataHashes d
      = if d = dh then true else s.processedDataHashes d := by
  show (rewardOracle (storeReading s c now sp occ cf ty dh) c).processedDataHashes d = _
  rw [rewardOracle_processed]
  rfl

theorem processed_monotone_step {s s' : OracleState} (hs : OracleStep s s')
    (d : Nat) (h : s.processedDataHashes d = true) :
    s'.processedDataHashes d = true := by
  cases hs with
  | add caller node nodeId hops =>
    obtain ⟨-, -, -, rfl⟩ := addOracleNode_ok hops
    exact h
  | remove caller node hops =>
    obtain ⟨-, -, rfl⟩ := removeOracleNode_ok hops
    exact h
  | update caller now spotId isOccupied confidence sensorType dataHash out hops =>
    obtain ⟨-, -, -, -, -, -, -, hout⟩ := updateSensorData_ok hops
    rcases hout with ⟨-, rfl, -⟩ | ⟨-, rfl, -⟩
    · rw [softRejectApply_processed]
      exact h
    · rw [acceptApply_processed]
      by_cases hd : d = dataHash
      · rw [if_pos hd]
      · rw [if_neg hd]
        exact h
  | setReputation caller node rep hops =>
    obtain ⟨-, -, -, rfl⟩ := updateOracleReputation_ok hops
    exact h
  | setSystem caller addr hops =>
    obtain ⟨-, -, rfl⟩ := updateParkingSystemContract_ok hops
    exact h
  | doPause caller hops =>
    obtain ⟨-, rfl⟩ := pauseOracle_ok hops
    exact h
  | doUnpause caller hops =>
    obtain ⟨-, rfl⟩ := unpauseOracle_ok hops
    exact h
  | ownerChange caller newOwner hops =>
    obtain ⟨-, rfl⟩ := transferOracleOwner_ok hops
    exact h
  | reward a =>
    rw [rewardOracle_processed]
    exact h
  | penalize a =>
    rw [penalizeOracle_processed]
    exact h

theorem ostep_oS2_oS3 : OracleStep oS2 oS3 :=
  OracleStep.update 5 130 1 true 75 "u" 2 .softRejected rfl

theorem ostep_oS3_oS4 : OracleStep oS3 oS4 :=
  OracleStep.update 5 160 1 true 85 "u" 2 .accepted rfl

/-! ## Claim C6 — global replay protection -/

/-- C6, as stated, is false of the code: the phrase "at most the first
is accepted" fails, because a soft-rejected submission does not mark its
hash as processed.  Concretely (reachable run): the first call carrying
hash `2` is soft-rejected and leaves the hash unprocessed, and a later
call carrying the same hash `2` is accepted. -/
theorem c6_counterexample :
    OracleReach oS2 ∧
    updateSensorData oS2 5 130 1 true 75 "u" 2
        = Except.ok (oS3, UpdateOutcome.softRejected) ∧
    oS3.processedDataHashes 2 = false ∧
    updateSensorData oS3 5 160 1 true 85 "u" 2
        = Except.ok (oS4, UpdateOutcome.accepted) ∧
    oS4.processedDataHashes 2 = true :=
  ⟨oreach_oS2, rfl, by decide, rfl, by decide⟩

/-- C6 (amended): at most ONE submission carrying a given content hash
is ever accepted — acceptance marks the hash processed, every operation
only grows the processed set, a processed hash is never accepted again,
and when all earlier guards pass a processed hash fails precisely with
`PolicyViolation: Replay`.  (The original "at most the first" is wrong
only in that a soft-rejected earlier submission does not consume the
hash.) -/
theorem c6_amended_replay_protection :
    (∀ (s s' : OracleState) (c now sp : Nat) (occ : Bool) (cf : Nat)
        (ty : String) (dh : Nat),
      updateSensorData s c now sp occ cf ty dh
          = Except.ok (s', UpdateOutcome.accepted) →
      s'.processedDataHashes dh = true) ∧
    (∀ s s' : OracleState, OracleStep s s' → ∀ d : Nat,
      s.processedDataHashes d = true → s'.processedDataHashes d = true) ∧
    (∀ (s : OracleState) (dh : Nat), s.processedDataHashes dh = true →
      ∀ (s' : OracleState) (c now sp : Nat) (occ : Bool) (cf : Nat) (ty : String),
      updateSensorData s c now sp occ cf ty dh
        ≠ Except.ok (s', UpdateOutcome.accepted)) ∧
    (∀ (s : OracleState) (c now sp : Nat) (occ : Bool) (cf : Nat)
        (ty : String) (dh : Nat),
      (s.oracleNodes c).isActive = true → s.paused = false → sp ≠ 0 →
      (s.latestSensorData sp).timestamp + 30 ≤ now → 70 ≤ cf →
      s.processedDataHashes dh = true →
      updateSensorData s c now sp occ cf ty dh = Except.error OracleError.Replay) ∧
    (∀ (s s₁ : OracleState) (c now sp : Nat) (occ : Bool) (cf : Nat)
        (ty : String) (dh : Nat),
      updateSensorData s c now sp occ cf ty dh
          = Except.ok (s₁, UpdateOutcome.accepted) →
      ∀ s₂ : OracleState, Relation.ReflTransGen OracleStep s₁ s₂ →
      ∀ (s₃ : OracleState) (c2 now2 sp2 : Nat) (occ2 : Bool) (cf2 : Nat)
          (ty2 : String),
      updateSensorData s₂ c2 now2 sp2 occ2 cf2 ty2 dh
        ≠ Except.ok (s₃, UpdateOutcome.accepted)) := by
  have hacc : ∀ (s s' : OracleState) (c now sp : Nat) (occ : Bool) (cf : Nat)
      (ty : String) (dh : Nat),
      updateSensorData s c now sp occ cf ty dh
          = Except.ok (s', UpdateOutcome.accepted) →
      s'.processedDataHashes dh = true := by
    intro s s' c now sp occ cf ty dh h
    obtain ⟨-, -, -, -, -, -, -, hout⟩ := updateSensorData_ok h
    rcases hout with ⟨-, -, hbad⟩ | ⟨-, rfl, -⟩
    · exact absurd hbad (by decide)
    · rw [acceptApply_processed, if_pos rfl]
  have hnever : ∀ (s : OracleState) (dh : Nat), s.processedDataHashes dh = true →
      ∀ (s' : OracleState) (c now sp : Nat) (occ : Bool) (cf : Nat) (ty : String),
      updateSensorData s c now sp occ cf ty dh
        ≠ Except.ok (s', UpdateOutcome.accepted) := by
    intro s dh hproc s' c now sp occ cf ty h
    have := (updateSensorData_ok h).2.2.2.2.2.1
    rw [hproc] at this
    exact absurd this (by decide)
  have hmono : ∀ s s' : OracleState, OracleStep s s' → ∀ d : Nat,
      s.processedDataHashes d = true → s'.processedDataHashes d = true :=
    fun s s' hs d h => processed_monotone_step hs d h
  refine ⟨hacc, hmono, hnever, ?_, ?_⟩
  · intro s c now sp occ cf ty dh h1 h2 h3 h4 h5 h6
    unfold updateSensorData
    rw [if_neg (by simp [h1]), if_neg (by simp [h2]), if_neg h3,
      if_neg (by omega), if_neg (by omega), if_pos h6]
  · intro s s₁ c now sp occ cf ty dh h1 s₂ hchain s₃ c2 now2 sp2 occ2 cf2 ty2
    have hp1 : s₁.processedDataHashes dh = true := hacc s s₁ c now sp occ cf ty dh h1
    have hp2 : s₂.processedDataHashes dh = true := by
      induction hchain with
      | refl => exact hp1
      | tail hst hstep ih => exact processed_monotone_step hstep dh ih
    exact hnever s₂ dh hp2 s₃ c2 now2 sp2 occ2 cf2 ty2

theorem c6_amended_replay_protection_witness :
    oS2.processedDataHashes 1 = true ∧
    updateSensorData oS4 5 200 1 true 90 "u" 1
      ≠ Except.ok (oS4, UpdateOutcome.accepted) :=
  ⟨c6_amended_replay_protection.1 oS1 oS2 5 100 1 false 90 "u" 1 rfl,
    c6_amended_replay_protection.2.2.2.2 oS1 oS2 5 100 1 false 90 "u" 1 rfl oS4
      (Relation.ReflTransGen.tail (Relation.ReflTransGen.tail
        Relation.ReflTransGen.refl ostep_oS2_oS3) ostep_oS3_oS4)
      oS4 5 200 1 true 90 "u"⟩

/-! ## The soft-rejection path changes nothing but trust -/

theorem softRejectApply_latest (s : OracleState) (c sp : Nat) :
    (softRejectApply s c sp).latestSensorData = s.latestSensorData := by
  unfold softRejectApply penalizeOracle
  split <;> rfl

theorem softRejectApply_history (s : OracleState) (c sp : Nat) :
    (softRejectApply s c sp).sensorHistory = s.sensorHistory := by
  unfold softRejectApply penalizeOracle
  split <;> rfl

theorem softRejectApply_rep (s : OracleState) (c sp : Nat) :
    ((softRejectApply s c sp).oracleNodes c).reputation
      = penalizedReputation (s.oracleNodes c).reputation := by
  rw [softRejectApply_node, penalizeOracle_node, if_pos rfl]
  split <;> rfl

theorem softRejectApply_event_mem (s : OracleState) (c sp : Nat) :
    OracleEvent.DataValidationFailed c sp ∈ (softRejectApply s c sp).events := by
  unfold softRejectApply penalizeOracle
  split <;> simp

/-! ## Claim C7 — soft semantic rejection -/

/-- C7: when every hard guard passes, a prior reading exists, the
occupancy flag differs and the confidence is below 80,
`updateSensorData` returns successfully with the `softRejected` outcome:
it emits `DataValidationFailed`, applies the reputation penalty to the
reporter, and stores nothing — latest reading, history and the
processed-hash set are all unchanged. -/
theorem c7_soft_semantic_rejection (s : OracleState) (c now sp : Nat)
    (occ : Bool) (cf : Nat) (ty : String) (dh : Nat)
    (hact : (s.oracleNodes c).isActive = true) (hp : s.paused = false)
    (hsp : sp ≠ 0) (hcool : (s.latestSensorData sp).timestamp + 30 ≤ now)
    (hcf : 70 ≤ cf) (hh : s.processedDataHashes dh = false) (hty : ty.length ≠ 0)
    (hprior : 0 < (s.latestSensorData sp).timestamp)
    (hdiff : (s.latestSensorData sp).isOccupied ≠ occ) (hlow : cf < 80) :
    updateSensorData s c now sp occ cf ty dh
        = Except.ok (softRejectApply s c sp, UpdateOutcome.softRejected) ∧
    (softRejectApply s c sp).latestSensorData = s.latestSensorData ∧
    (softRejectApply s c sp).sensorHistory = s.sensorHistory ∧
    (softRejectApply s c sp).processedDataHashes = s.processedDataHashes ∧
    ((softRejectApply s c sp).oracleNodes c).reputation
        = penalizedReputation ((s.oracleNodes c).reputation) ∧
    OracleEvent.DataValidationFailed c sp ∈ (softRejectApply s c sp).events := by
  have hval : validateSensorData s sp occ cf now = false := by
    unfold validateSensorData
    rw [if_neg (by omega), if_pos hprior, if_pos ⟨hdiff, hlow⟩]
  refine ⟨?_, softRejectApply_latest s c sp, softRejectApply_history s c sp,
    softRejectApply_processed s c sp, softRejectApply_rep s c sp,
    softRejectApply_event_mem s c sp⟩
  unfold updateSensorData
  rw [if_neg (by simp [hact]), if_neg (by simp [hp]), if_neg hsp,
    if_neg (by omega), if_neg (by omega), if_neg (by simp [hh]),
    if_neg hty, if_pos hval]

theorem c7_soft_semantic_rejection_witness :
    updateSensorData oS2 5 130 1 true 75 "u" 2
        = Except.ok (softRejectApply oS2 5 1, UpdateOutcome.softRejected) ∧
    (softRejectApply oS2 5 1).latestSensorData = oS2.latestSensorData ∧
    ((softRejectApply oS2 5 1).oracleNodes 5).reputation
        = penalizedReputation ((oS2.oracleNodes 5).reputation) :=
  ⟨(c7_soft_semantic_rejection oS2 5 130 1 true 75 "u" 2 (by decide) (by decide)
      (by decide) (by decide) (by decide) (by decide) (by decide) (by decide)
      (by decide) (by decide)).1,
   (c7_soft_semantic_rejection oS2 5 130 1 true 75 "u" 2 (by decide) (by decide)
      (by decide) (by decide) (by decide) (by decide) (by decide) (by decide)
      (by decide) (by decide)).2.1,
   (c7_soft_semantic_rejection oS2 5 130 1 true 75 "u" 2 (by decide) (by decide)
      (by decide) (by decide) (by decide) (by decide) (by decide) (by decide)
      (by decide) (by decide)).2.2.2.2.1⟩

/-! ## Claim C8 — the confidence range is not a two-sided hard guard -/

/-- C8, as stated, is false of the code: a confidence above 100 passes
the hard guard (`require(confidence >= 70)` checks only the lower
bound) and lands in semantic validation, which soft-rejects it — the
call returns successfully and the reporter IS penalized (reputation 501
drops to 491 in the reachable state `oS2`), instead of aborting with
`PolicyViolation: LowConfidence` and no state change. -/
theorem c8_counterexample :
    OracleReach oS2 ∧
    updateSensorData oS2 5 130 1 false 150 "u" 99
        = Except.ok (oS8, UpdateOutcome.softRejected) ∧
    (oS2.oracleNodes 5).reputation = 501 ∧
    (oS8.oracleNodes 5).reputation = 491 :=
  ⟨oreach_oS2, rfl, by decide, by decide⟩

/-- C8 (amended): only the lower confidence bound is a hard guard —
when the earlier guards pass, `confidence < 70` reverts with
`PolicyViolation: LowConfidence` (no state change, no penalty), while
`confidence > 100` passes all hard guards and is SOFT-rejected by
semantic validation: the call returns success, emits
`DataValidationFailed`, penalizes the reporter, and stores nothing. -/
theorem c8_amended_confidence_guard :
    (∀ (s : OracleState) (c now sp : Nat) (occ : Bool) (cf : Nat)
        (ty : String) (dh : Nat),
      (s.oracleNodes c).isActive = true → s.paused = false → sp ≠ 0 →
      (s.latestSensorData sp).timestamp + 30 ≤ now → cf < 70 →
      updateSensorData s c now sp occ cf ty dh
        = Except.error OracleError.LowConfidence) ∧
    (∀ (s : OracleState) (c now sp : Nat) (occ : Bool) (cf : Nat)
        (ty : String) (dh : Nat),
      (s.oracleNodes c).isActive = true → s.paused = false → sp ≠ 0 →
      (s.latestSensorData sp).timestamp + 30 ≤ now → 100 < cf →
      s.processedDataHashes dh = false → ty.length ≠ 0 →
      updateSensorData s c now sp occ cf ty dh
          = Except.ok (softRejectApply s c sp, UpdateOutcome.softRejected) ∧
      (softRejectApply s c sp).latestSensorData = s.latestSensorData ∧
      (softRejectApply s c sp).sensorHistory = s.sensorHistory ∧
      (softRejectApply s c sp).processedDataHashes = s.processedDataHashes ∧
      ((softRejectApply s c sp).oracleNodes c).reputation
          = penalizedReputation ((s.oracleNodes c).reputation)) := by
  constructor
  · intro s c now sp occ cf ty dh h1 h2 h3 h4 h5
    unfold updateSensorData
    rw [if_neg (by simp [h1]), if_neg (by simp [h2]), if_neg h3,
      if_neg (by omega), if_pos h5]
  · intro s c now sp occ cf ty dh h1 h2 h3 h4 h5 h6 h7
    have hval : validateSensorData s sp occ cf now = false := by
      unfold validateSensorData
      rw [if_pos (Or.inr h5)]
    refine ⟨?_, softRejectApply_latest s c sp, softRejectApply_history s c sp,
      softRejectApply_processed s c sp, softRejectApply_rep s c sp⟩
    unfold updateSensorData
    rw [if_neg (by simp [h1]), if_neg (by simp [h2]), if_neg h3,
      if_neg (by omega), if_neg (by omega), if_neg (by simp [h6]),
      if_neg h7, if_pos hval]

theorem c8_amended_confidence_guard_witness :
    updateSensorData oS2 5 130 1 false 50 "u" 99
        = Except.error OracleError.LowConfidence ∧
    updateSensorData oS2 5 130 1 false 150 "u" 99
        = Except.ok (softRejectApply oS2 5 1, UpdateOutcome.softRejected) :=
  ⟨c8_amended_confidence_guard.1 oS2 5 130 1 false 50 "u" 99 (by decide)
      (by decide) (by decide) (by decide) (by decide),
   (c8_amended_confidence_guard.2 oS2 5 130 1 false 150 "u" 99 (by decide)
      (by decide) (by decide) (by decide) (by decide) (by decide) (by decide)).1⟩

/-! ## Claim C9 — the bounded-history eviction is buggy -/

/-- C9 is right about the intent (the source comment says "garder les
100 dernières" — keep the 100 most recent) but the code's compaction
loop runs only `length − 100 = 1` iterations, so it copies `hist[1]`
into `hist[0]` and then pops the LAST slot.  On a full history
`[h0, …, h99]` an accepted reading `newReading` therefore yields
`[h1, h1, h2, …, h99]`: the length is 100 and the oldest entry `h0` is
gone, but `h1` is duplicated and the newly accepted reading is **not**
stored in the history at all — the last entry is still `h99`, not
`newReading` as the claim (and the code's own comment) require. -/
theorem c9_history_code_bug :
    (histState.sensorHistory 1).length = 100 ∧
    updateSensorData histState 5 200 1 false 90 "u" 500
        = Except.ok (histState2, UpdateOutcome.accepted) ∧
    (histState2.sensorHistory 1).length = 100 ∧
    mkReading 0 ∉ histState2.sensorHistory 1 ∧
    newReading ∉ histState2.sensorHistory 1 ∧
    (histState2.sensorHistory 1).getLast? = some (mkReading 99) ∧
    (histState2.sensorHistory 1).getD 0 defaultSensorData
        = (histState2.sensorHistory 1).getD 1 defaultSensorData ∧
    histState2.sensorHistory 1 ≠ (histState.sensorHistory 1).tail ++ [newReading] ∧
    histState2.latestSensorData 1 = newReading :=
  ⟨by decide, rfl, by decide, by decide, by decide, by decide, by decide,
    by decide, by decide⟩

end Parking
